import Mathlib

/-!
Shallow embedding of the `yoi` inference-to-event pipeline core
(`src/yoi/features/line_cross.py`, `src/yoi/features/region_crowd.py`,
`src/yoi/features/dwell_time.py`, `src/yoi/features/base.py`,
`src/yoi/tracking/object_tracker.py`, `src/yoi/tracking/reid_service.py`).

Conventions used throughout:
* Python floats are modelled as exact rationals (`ℚ`); comparisons that the
  source performs on real square roots (`(dx*dx+dy*dy) ** 0.5 > m`, distances)
  are rendered by the exactly equivalent rational tests (`sqrtGT`, `sqrtLT`,
  `ltAddSqrt` below), so no irrational value ever has to be represented.
* Python `dict`s are modelled as insertion-ordered association lists when the
  set of keys is observable (e.g. `len(self.track_positions)` feeds a metric),
  and as total functions with the `defaultdict` default value when only
  lookups are observable.  The two renditions agree with the source on every
  reachable behaviour; comments at the use sites justify this.
* Frame indices are `ℤ` (Python ints), counts are `ℤ`, set-valued state is a
  duplicate-free insertion-ordered `List`.
-/

namespace Yoi

/-- Python `int(x)` (truncation toward zero) on a rational. -/
def pyInt (q : ℚ) : ℤ := q.num.tdiv q.den

/-- Decide `Real.sqrt s > q` for `s ≥ 0` purely on rationals:
`√s > q ↔ q < 0 ∨ s > q²`. Used for the source's `sqrt(...) > m` tests. -/
def sqrtGT (s q : ℚ) : Bool := decide (q < 0) || decide (s > q * q)

/-- Decide `Real.sqrt s < q` for `s ≥ 0` purely on rationals:
`√s < q ↔ 0 < q ∧ s < q²`. -/
def sqrtLT (s q : ℚ) : Bool := decide (0 < q) && decide (s < q * q)

/-- Decide `√u < X + √v` for `u, v ≥ 0` purely on rationals (case analysis and
squaring).  Used to compare the centroid matcher's real-valued match scores
exactly. -/
def ltAddSqrt (u X v : ℚ) : Bool :=
  if sqrtLT v (-X) then false
  else
    let W := u - X * X - v
    if 0 ≤ X then decide (W < 0) || decide (W * W < 4 * X * X * v)
    else decide (W < 0) && decide (W * W > 4 * X * X * v)

/-- Association-list lookup (Python `dict.get` / `in`). -/
def alookup {α β : Type} [DecidableEq α] : List (α × β) → α → Option β
  | [], _ => none
  | (k, v) :: rest, a => if k = a then some v else alookup rest a

/-- Association-list insert-or-overwrite (`d[k] = v`): overwriting keeps the
key's insertion position, a fresh key is appended — exactly a Python dict
(keys are unique by construction). -/
def aupsert {α β : Type} [DecidableEq α] : List (α × β) → α → β → List (α × β)
  | [], k, v => [(k, v)]
  | (k', v') :: rest, k, v =>
    if k' = k then (k, v) :: rest else (k', v') :: aupsert rest k v

/-- Python `set.add`: append unless already present (insertion-ordered,
duplicate-free list as set). -/
def sadd {α : Type} [DecidableEq α] (l : List α) (a : α) : List α :=
  if a ∈ l then l else l ++ [a]

/-- Python `set.discard` / guarded `remove`: drop every occurrence. -/
def sdiscard {α : Type} [DecidableEq α] (l : List α) (a : α) : List α :=
  l.filter (fun b => decide (b ≠ a))

/-- Insert into a `≤`-sorted list of integers. -/
def insertSorted (a : ℤ) : List ℤ → List ℤ
  | [] => [a]
  | b :: r => if a ≤ b then a :: b :: r else b :: insertSorted a r

/-- Python `sorted(...)` on integers. -/
def sortInts (l : List ℤ) : List ℤ := l.foldr insertSorted []

/-- Python `round(x, 2)` idealized to exact rationals (round half to even). -/
def pyRound2 (q : ℚ) : ℚ :=
  let m := q * 100
  let f : ℤ := ⌊m⌋
  let r := m - (f : ℚ)
  let n : ℤ :=
    if r < 1 / 2 then f
    else if r > 1 / 2 then f + 1
    else if f % 2 = 0 then f else f + 1
  (n : ℚ) / 100

/-! ## Shared feature-level data (`src/yoi/features/base.py`) -/

/-- `Detection` dataclass handed to the features: bbox coordinates are
normalized `[0,1]` rationals; `bbox = [x1, y1, x2, y2]`. -/
structure Detection where
  trackId : ℤ
  classId : ℤ
  className : String
  confidence : ℚ
  x1 : ℚ
  y1 : ℚ
  x2 : ℚ
  y2 : ℚ
deriving Repr

/-- `_get_centroid` shared by all three features: `head` = bbox top-center,
`bottom` = bbox bottom-center, anything else = bbox center (`mid_centre`). -/
def getCentroid (mode : String) (det : Detection) : ℚ × ℚ :=
  if mode = "head" then ((det.x1 + det.x2) / 2, det.y1)
  else if mode = "bottom" then ((det.x1 + det.x2) / 2, det.y2)
  else ((det.x1 + det.x2) / 2, (det.y1 + det.y2) / 2)

/-- The edges walked by `BaseFeature._check_point_in_polygon`:
`(polygon[0], polygon[1]), …, (polygon[n-1], polygon[0])`. -/
def pipEdges (polygon : List (ℚ × ℚ)) : List ((ℚ × ℚ) × (ℚ × ℚ)) :=
  polygon.zip (polygon.drop 1 ++ polygon.take 1)

/-- One edge of the ray-casting loop.  In the source, `xinters` is assigned
under the guard `p1y != p2y`; whenever the toggle condition is reached with
`p1x ≠ p2x`, the guards `y > min ∧ y ≤ max` force `p1y ≠ p2y`, so computing
the intersection abscissa unconditionally (with `ℚ`'s total division) agrees
with the source on every reachable input. -/
def pipEdgeStep (x y : ℚ) (inside : Bool) (e : (ℚ × ℚ) × (ℚ × ℚ)) : Bool :=
  let p1x := e.1.1
  let p1y := e.1.2
  let p2x := e.2.1
  let p2y := e.2.2
  if y > min p1y p2y ∧ y ≤ max p1y p2y ∧ x ≤ max p1x p2x ∧
      (p1x = p2x ∨ x ≤ (y - p1y) * (p2x - p1x) / (p2y - p1y) + p1x) then
    !inside
  else inside

/-- `BaseFeature._check_point_in_polygon`: ray casting (even-odd rule). -/
def pointInPolygon (p : ℚ × ℚ) (polygon : List (ℚ × ℚ)) : Bool :=
  (pipEdges polygon).foldl (pipEdgeStep p.1 p.2) false

/-! ## Line-cross feature (`src/yoi/features/line_cross.py`) -/

/-- A configured line (`lines[]` entry); `coords` lists its endpoints. -/
structure LineZone where
  id : ℤ
  coords : List (ℚ × ℚ)
  orientation : String
  direction : String
deriving Repr

structure LCConfig where
  lines : List LineZone
  centroidMode : String
  lostThreshold : ℤ
  allowRecounting : Bool
  maxPositionJump : ℚ
  inThreshold : ℤ
  outThreshold : ℤ
deriving Repr

structure LCAlert where
  kind : String
  lineId : ℤ
  count : ℤ
  threshold : ℤ
  frame : ℤ
  trackId : ℤ
deriving Repr, DecidableEq

/-- `LineCrossFeature` mutable state.  `track_positions` / `track_last_seen`
are plain dicts whose key count feeds the `active_tracks` metric, hence
association lists; `crossed_tracks`, `in_counts`, `out_counts` are
defaultdicts observed only through lookups, hence total maps with the
default (`[]` resp. `0`) at every untouched key. -/
structure LCState where
  trackPositions : List (ℤ × List (ℚ × ℚ))
  trackLastSeen : List (ℤ × ℤ)
  crossedTracks : ℤ → List ℤ
  inCounts : ℤ → ℤ
  outCounts : ℤ → ℤ
  totalIn : ℤ
  totalOut : ℤ
  alerts : List LCAlert
  frameCount : ℕ

def lcInit : LCState :=
  { trackPositions := []
    trackLastSeen := []
    crossedTracks := fun _ => []
    inCounts := fun _ => 0
    outCounts := fun _ => 0
    totalIn := 0
    totalOut := 0
    alerts := []
    frameCount := 0 }

/-- `ccw(A, B, C)` from `LineCrossFeature._segments_intersect`
(strict inequality: colinear triples yield `false`). -/
def ccw (A B C : ℚ × ℚ) : Bool :=
  decide ((C.2 - A.2) * (B.1 - A.1) > (B.2 - A.2) * (C.1 - A.1))

/-- `LineCrossFeature._segments_intersect`. -/
def segmentsIntersect (p1 p2 p3 p4 : ℚ × ℚ) : Bool :=
  (ccw p1 p3 p4 != ccw p2 p3 p4) && (ccw p1 p2 p3 != ccw p1 p2 p4)

/-- `LineCrossFeature._check_line_crossing`: intersection test plus the
orientation/direction sign convention mapping the motion–normal dot product
to `"in"` / `"out"`. -/
def checkLineCrossing (prevP currP lineStart lineEnd : ℚ × ℚ)
    (orientation direction : String) : Option String :=
  if segmentsIntersect prevP currP lineStart lineEnd then
    let normal : ℚ × ℚ := (-(lineEnd.2 - lineStart.2), lineEnd.1 - lineStart.1)
    let motion : ℚ × ℚ := (currP.1 - prevP.1, currP.2 - prevP.2)
    let dot := motion.1 * normal.1 + motion.2 * normal.2
    if orientation = "horizontal" then
      if direction = "downward" then some (if dot > 0 then "in" else "out")
      else if direction = "upward" then some (if dot < 0 then "in" else "out")
      else some (if dot > 0 then "in" else "out")
    else
      if direction = "rightward" then some (if dot > 0 then "in" else "out")
      else if direction = "leftward" then some (if dot < 0 then "in" else "out")
      else some (if dot > 0 then "in" else "out")
  else none

/-- Per-line body of the crossing loop in `LineCrossFeature.process`
(lines 241–302): skip when already counted (unless `allow_recounting`),
else test the crossing, mark the track, bump the counter, and emit an alert
whenever the updated counter has reached the direction's threshold. -/
def lcLineStep (cfg : LCConfig) (frameIdx trackId : ℤ) (prevP currP : ℚ × ℚ)
    (sa : LCState × List LCAlert) (line : LineZone) : LCState × List LCAlert :=
  let s := sa.1
  let acc := sa.2
  match line.coords with
  | lineStart :: lineEnd :: _ =>
    if cfg.allowRecounting = false ∧ trackId ∈ s.crossedTracks line.id then (s, acc)
    else
      match checkLineCrossing prevP currP lineStart lineEnd
          line.orientation line.direction with
      | none => (s, acc)
      | some dir =>
        let s := { s with crossedTracks := fun l =>
          if l = line.id then sadd (s.crossedTracks l) trackId else s.crossedTracks l }
        if dir = "in" then
          let newCount := s.inCounts line.id + 1
          let s := { s with
            inCounts := fun l => if l = line.id then newCount else s.inCounts l,
            totalIn := s.totalIn + 1 }
          if newCount ≥ cfg.inThreshold then
            (s, acc ++ [⟨"line_crossing_in", line.id, newCount, cfg.inThreshold,
              frameIdx, trackId⟩])
          else (s, acc)
        else if dir = "out" then
          let newCount := s.outCounts line.id + 1
          let s := { s with
            outCounts := fun l => if l = line.id then newCount else s.outCounts l,
            totalOut := s.totalOut + 1 }
          if newCount ≥ cfg.outThreshold then
            (s, acc ++ [⟨"line_crossing_out", line.id, newCount, cfg.outThreshold,
              frameIdx, trackId⟩])
          else (s, acc)
        else (s, acc)
  | _ => (s, acc)

/-- Per-detection body of `LineCrossFeature.process` (lines 201–302):
read the previous point, apply the ghost-jump guard (`max_position_jump`),
append the new point (ring of the most recent 10), then evaluate crossings
against every configured line when a previous point survived the guard.
The source's `(dx*dx + dy*dy) ** 0.5 > max_position_jump` is rendered by
the equivalent rational test `sqrtGT`. -/
def lcDetStep (cfg : LCConfig) (frameIdx : ℤ) (sa : LCState × List LCAlert)
    (det : Detection) : LCState × List LCAlert :=
  let s := sa.1
  let acc := sa.2
  let trackId := det.trackId
  let c := getCentroid cfg.centroidMode det
  let pos0 := (alookup s.trackPositions trackId).getD []
  let prev0 : Option (ℚ × ℚ) := pos0.getLast?
  let exceeds : Bool :=
    match prev0 with
    | some p =>
      sqrtGT ((c.1 - p.1) * (c.1 - p.1) + (c.2 - p.2) * (c.2 - p.2))
        cfg.maxPositionJump
    | none => false
  let pos1 := if exceeds then [] else pos0
  let prev1 : Option (ℚ × ℚ) := if exceeds then none else prev0
  let crossed1 : ℤ → List ℤ :=
    if exceeds then fun l => sdiscard (s.crossedTracks l) trackId
    else s.crossedTracks
  let pos2 := pos1 ++ [c]
  let pos3 := if pos2.length > 10 then pos2.drop (pos2.length - 10) else pos2
  let s := { s with
    trackPositions := aupsert s.trackPositions trackId pos3,
    trackLastSeen := aupsert s.trackLastSeen trackId frameIdx,
    crossedTracks := crossed1 }
  match prev1 with
  | none => (s, acc)
  | some prevP => cfg.lines.foldl (lcLineStep cfg frameIdx trackId prevP c) (s, acc)

/-- `LineCrossFeature.process`: evict lost tracks, then run every detection;
returns the updated state and this frame's freshly emitted alerts
(`current_alerts`), which are also appended to the cumulative `alerts`. -/
def lcProcess (cfg : LCConfig) (s : LCState) (dets : List Detection)
    (frameIdx : ℤ) : LCState × List LCAlert :=
  let s := { s with frameCount := s.frameCount + 1 }
  let lost := (s.trackLastSeen.filter
    (fun p => decide (frameIdx - p.2 > cfg.lostThreshold))).map Prod.fst
  let s := { s with
    trackPositions := s.trackPositions.filter (fun p => decide (p.1 ∉ lost)),
    trackLastSeen := s.trackLastSeen.filter (fun p => decide (p.1 ∉ lost)) }
  let r := dets.foldl (lcDetStep cfg frameIdx) (s, [])
  ({ r.1 with alerts := r.1.alerts ++ r.2 }, r.2)

structure LCLineMetric where
  inCount : ℤ
  outCount : ℤ
  netCount : ℤ
deriving Repr, DecidableEq

structure LCMetrics where
  totalIn : ℤ
  totalOut : ℤ
  netCount : ℤ
  lines : List (ℤ × LCLineMetric)
  activeTracks : ℕ
  alertsCount : ℕ
deriving Repr, DecidableEq

/-- `LineCrossFeature.get_metrics`. -/
def lcGetMetrics (cfg : LCConfig) (s : LCState) : LCMetrics :=
  { totalIn := s.totalIn
    totalOut := s.totalOut
    netCount := s.totalIn - s.totalOut
    lines := cfg.lines.map (fun line =>
      (line.id, ⟨s.inCounts line.id, s.outCounts line.id,
        s.inCounts line.id - s.outCounts line.id⟩))
    activeTracks := s.trackPositions.length
    alertsCount := s.alerts.length }

/-- `LineCrossFeature.reset`: clear every counter and every piece of
tracking state (the configuration is untouched). -/
def lcReset (_s : LCState) : LCState := lcInit

/-! ## Region-crowd feature (`src/yoi/features/region_crowd.py`) -/

/-- A configured polygonal region (`regions[]` entry). -/
structure RegionZone where
  id : ℤ
  coords : List (ℚ × ℚ)
deriving Repr

/-- `RegionCrowdFeature` configuration.  `cooldown_frames` is
`cooldown_seconds * fps`, computed once in `__init__`. -/
structure RCConfig where
  regions : List RegionZone
  centroidMode : String
  alertThreshold : ℤ
  warningThreshold : ℤ
  criticalThreshold : ℤ
  cooldownFrames : ℤ
deriving Repr

structure RCAlert where
  kind : String
  regionId : ℤ
  count : ℤ
  threshold : ℤ
  frame : ℤ
deriving Repr, DecidableEq

/-- `RegionCrowdFeature` mutable state.  All four dicts are defaultdicts
keyed by the region's *index*, observed only through lookups, hence total
maps with the default (`0` resp. `∅`, and `last_alert_frame` defaults to
`0`) at every untouched key. -/
structure RCState where
  currentCounts : ℕ → ℤ
  maxCounts : ℕ → ℤ
  lastAlertFrame : ℕ → ℤ
  tracksInRegion : ℕ → List ℤ
  alerts : List RCAlert
  frameCount : ℕ

def rcInit : RCState :=
  { currentCounts := fun _ => 0
    maxCounts := fun _ => 0
    lastAlertFrame := fun _ => 0
    tracksInRegion := fun _ => []
    alerts := []
    frameCount := 0 }

/-- Per-(detection, region) body of `RegionCrowdFeature.process`
(lines 84–118): when the centroid lies in the polygon, bump the count,
record the track, raise `max_count`, and emit a `region_crowd_alert`
when the count has reached `alert_threshold` and the cooldown window
(`frame_idx - last_alert_frame ≥ cooldown_frames`) has elapsed. -/
def rcRegionStep (cfg : RCConfig) (frameIdx : ℤ) (det : Detection)
    (c : ℚ × ℚ) (sa : RCState × List RCAlert) (ir : ℕ × RegionZone) :
    RCState × List RCAlert :=
  let s := sa.1
  let acc := sa.2
  let ridx := ir.1
  let region := ir.2
  if region.coords.length < 3 then (s, acc)
  else if pointInPolygon c region.coords then
    let newCount := s.currentCounts ridx + 1
    let s := { s with
      currentCounts := fun i => if i = ridx then newCount else s.currentCounts i,
      tracksInRegion := fun i =>
        if i = ridx then sadd (s.tracksInRegion i) det.trackId
        else s.tracksInRegion i }
    let s :=
      if newCount > s.maxCounts ridx then
        { s with maxCounts := fun i =>
            if i = ridx then newCount else s.maxCounts i }
      else s
    if newCount ≥ cfg.alertThreshold ∧
        frameIdx - s.lastAlertFrame ridx ≥ cfg.cooldownFrames then
      ({ s with lastAlertFrame := fun i =>
          if i = ridx then frameIdx else s.lastAlertFrame i },
        acc ++ [⟨"region_crowd_alert", region.id, newCount, cfg.alertThreshold,
          frameIdx⟩])
    else (s, acc)
  else (s, acc)

/-- `RegionCrowdFeature.process`: zero the per-region counts and occupant
sets, then fold every detection over every region; returns the updated
state and this frame's emitted alerts. -/
def rcProcess (cfg : RCConfig) (s : RCState) (dets : List Detection)
    (frameIdx : ℤ) : RCState × List RCAlert :=
  let s := { s with frameCount := s.frameCount + 1 }
  let n := cfg.regions.length
  let s := { s with
    currentCounts := fun i => if i < n then 0 else s.currentCounts i,
    tracksInRegion := fun i => if i < n then [] else s.tracksInRegion i }
  let r := dets.foldl (fun sa det =>
    cfg.regions.enum.foldl
      (rcRegionStep cfg frameIdx det (getCentroid cfg.centroidMode det)) sa) (s, [])
  ({ r.1 with alerts := r.1.alerts ++ r.2 }, r.2)

structure RCRegionMetric where
  currentCount : ℤ
  maxCount : ℤ
  activeTracks : ℕ
  status : String
deriving Repr, DecidableEq

structure RCMetrics where
  totalCurrent : ℤ
  totalMax : ℤ
  warningThreshold : ℤ
  criticalThreshold : ℤ
  insideTrackIds : List ℤ
  regions : List (ℤ × RCRegionMetric)
  alertsCount : ℕ
deriving Repr, DecidableEq

/-- `RegionCrowdFeature.get_metrics`.  The source sums
`current_counts.values()` / `max_counts.values()` and unions
`tracks_in_region.values()`; the keys ever materialized are exactly the
region indexes `0 .. len(regions)-1` (both `process` and `get_metrics`
touch each of them), so the totals range over `List.range`. -/
def rcGetMetrics (cfg : RCConfig) (s : RCState) : RCMetrics :=
  let n := cfg.regions.length
  { totalCurrent := ((List.range n).map s.currentCounts).sum
    totalMax := ((List.range n).map s.maxCounts).sum
    warningThreshold := cfg.warningThreshold
    criticalThreshold := cfg.criticalThreshold
    insideTrackIds := sortInts
      (((List.range n).foldl (fun acc i => acc ++ s.tracksInRegion i) []).dedup)
    regions := cfg.regions.enum.map (fun ir =>
      let c := s.currentCounts ir.1
      let status :=
        if c ≥ cfg.criticalThreshold then "critical"
        else if c ≥ cfg.warningThreshold then "warning"
        else "normal"
      (ir.2.id, ⟨c, s.maxCounts ir.1, (s.tracksInRegion ir.1).length, status⟩))
    alertsCount := s.alerts.length }

/-- `RegionCrowdFeature.reset`: clear all counters and state. -/
def rcReset (_s : RCState) : RCState := rcInit

/-! ## Dwell-time feature (`src/yoi/features/dwell_time.py`) -/

/-- `DwellTimeFeature` configuration; `min_dwell_frames` and
`alert_threshold_frames` are the configured seconds times `fps`,
computed once in `__init__` (floats, hence `ℚ`). -/
structure DTConfig where
  regions : List RegionZone
  centroidMode : String
  fps : ℚ
  minDwellFrames : ℚ
  alertThresholdFrames : ℚ
deriving Repr

structure DTAlert where
  kind : String
  regionId : ℤ
  trackId : ℤ
  dwellTimeSeconds : ℚ
  thresholdSeconds : ℚ
  frame : ℤ
deriving Repr, DecidableEq

/-- `DwellTimeFeature` mutable state, keyed by region *id* (exactly like the
source's dicts, so duplicate-id regions share state).  All dicts are
observed only through lookups, hence total maps with the defaultdict
defaults.  `track_exit_frame` is assigned nowhere outside `__init__` /
`reset` in the source (dead state) and is carried unchanged. -/
structure DTState where
  trackEntryFrame : ℤ → ℤ → Option ℤ
  trackExitFrame : ℤ → ℤ → Option ℤ
  dwellTimes : ℤ → List ℚ
  currentDwelling : ℤ → List ℤ
  alertedTracks : ℤ → List ℤ
  alerts : List DTAlert
  frameCount : ℕ

def dtInit : DTState :=
  { trackEntryFrame := fun _ _ => none
    trackExitFrame := fun _ _ => none
    dwellTimes := fun _ => []
    currentDwelling := fun _ => []
    alertedTracks := fun _ => []
    alerts := []
    frameCount := 0 }

/-- Per-(detection, region) body of the first loop of
`DwellTimeFeature.process` (lines 108–151): membership test, entry
recording, current dwell computation and the `dwell_time_alert` check.
The triple threads (state, `current_in_region`, `current_alerts`). -/
def dtRegionStep (cfg : DTConfig) (frameIdx : ℤ) (det : Detection)
    (c : ℚ × ℚ) (sca : DTState × (ℤ → List ℤ) × List DTAlert)
    (region : RegionZone) : DTState × (ℤ → List ℤ) × List DTAlert :=
  let s := sca.1
  let cur := sca.2.1
  let acc := sca.2.2
  let rid := region.id
  if region.coords.length < 3 then (s, cur, acc)
  else if pointInPolygon c region.coords then
    let t := det.trackId
    let cur := fun r => if r = rid then sadd (cur r) t else cur r
    let s :=
      if (s.trackEntryFrame t rid).isSome then s
      else
        { s with
          trackEntryFrame := fun t' r' =>
            if t' = t ∧ r' = rid then some frameIdx else s.trackEntryFrame t' r',
          currentDwelling := fun r' =>
            if r' = rid then sadd (s.currentDwelling r') t
            else s.currentDwelling r' }
    let entryFrame := (s.trackEntryFrame t rid).getD frameIdx
    let dwellFrames := frameIdx - entryFrame
    if (dwellFrames : ℚ) ≥ cfg.alertThresholdFrames ∧ t ∉ s.alertedTracks rid then
      ({ s with alertedTracks := fun r' =>
          if r' = rid then sadd (s.alertedTracks r') t else s.alertedTracks r' },
        cur,
        acc ++ [⟨"dwell_time_alert", rid, t, (dwellFrames : ℚ) / cfg.fps,
          cfg.alertThresholdFrames / cfg.fps, frameIdx⟩])
    else (s, cur, acc)
  else (s, cur, acc)

/-- The `current_in_region` sets computed by the detection loop of
`DwellTimeFeature.process`; they depend only on the configuration and the
detections, never on the mutable state. -/
def dtCurrentInRegion (cfg : DTConfig) (dets : List Detection) : ℤ → List ℤ :=
  dets.foldl (fun cur det =>
    cfg.regions.foldl (fun cur region =>
      if region.coords.length < 3 then cur
      else if pointInPolygon (getCentroid cfg.centroidMode det) region.coords then
        fun r => if r = region.id then sadd (cur r) det.trackId else cur r
      else cur) cur) (fun _ => [])

/-- Per-exited-track body of the exit loop of `DwellTimeFeature.process`
(lines 157–174): when an entry frame exists, record the completed dwell if
it lasted at least `min_dwell_frames`, then clear the entry and the
alerted flag unconditionally. -/
def dtExitStep (cfg : DTConfig) (frameIdx r : ℤ) (s : DTState) (t : ℤ) :
    DTState :=
  match s.trackEntryFrame t r with
  | none => s
  | some e =>
    let dwellFrames := frameIdx - e
    let s :=
      if (dwellFrames : ℚ) ≥ cfg.minDwellFrames then
        { s with dwellTimes := fun r' =>
            if r' = r then s.dwellTimes r' ++ [(dwellFrames : ℚ) / cfg.fps]
            else s.dwellTimes r' }
      else s
    { s with
      trackEntryFrame := fun t' r' =>
        if t' = t ∧ r' = r then none else s.trackEntryFrame t' r',
      alertedTracks := fun r' =>
        if r' = r then sdiscard (s.alertedTracks r') t else s.alertedTracks r' }

/-- The detection loop of `DwellTimeFeature.process` (lines 108–151). -/
def dtDetPhase (cfg : DTConfig) (s : DTState) (dets : List Detection)
    (frameIdx : ℤ) : DTState × (ℤ → List ℤ) × List DTAlert :=
  dets.foldl (fun sca det =>
    cfg.regions.foldl
      (dtRegionStep cfg frameIdx det (getCentroid cfg.centroidMode det)) sca)
    (s, fun _ => [], [])

/-- The exit loop of `DwellTimeFeature.process` (lines 154–174).  The
source iterates over `current_dwelling.keys()`; a region id that never
materialized as a key has an empty dwelling set (hence no exits), so
folding over the distinct configured region ids agrees with the source. -/
def dtExitPhase (cfg : DTConfig) (frameIdx : ℤ) (cur : ℤ → List ℤ)
    (s : DTState) : DTState :=
  ((cfg.regions.map RegionZone.id).dedup).foldl (fun s rid =>
    ((s.currentDwelling rid).filter (fun t => decide (t ∉ cur rid))).foldl
      (dtExitStep cfg frameIdx rid) s) s

/-- `DwellTimeFeature.process`: detection loop, exit loop, then the
pointwise reassignment `current_dwelling[r] = current_in_region[r]`
(again: keys that never materialized hold the empty set on both sides). -/
def dtProcess (cfg : DTConfig) (s : DTState) (dets : List Detection)
    (frameIdx : ℤ) : DTState × List DTAlert :=
  let s := { s with frameCount := s.frameCount + 1 }
  let r := dtDetPhase cfg s dets frameIdx
  let s := dtExitPhase cfg frameIdx r.2.1 r.1
  let s := { s with currentDwelling := r.2.1 }
  ({ s with alerts := s.alerts ++ r.2.2 }, r.2.2)

structure DTRegionMetric where
  currentDwelling : ℕ
  currentDwellTimes : List ℚ
  totalCompleted : ℕ
  avgDwellSeconds : ℚ
  maxDwellSeconds : ℚ
  minDwellSeconds : ℚ
deriving Repr, DecidableEq

structure DTMetrics where
  regions : List (ℤ × DTRegionMetric)
  insideTrackIds : List ℤ
  alertedTrackIds : List ℤ
  overallAvgDwellSeconds : ℚ
  overallMaxDwellSeconds : ℚ
  totalDwellsRecorded : ℕ
  alertsCount : ℕ
deriving Repr, DecidableEq

/-- The per-region block of `DwellTimeFeature.get_metrics` (lines 197–227).
Note `dwell_frames = self.frame_count - entry_frame` for the *current*
dwell times: the running count of `process` calls, not a frame index. -/
def dtRegionMetricOf (cfg : DTConfig) (s : DTState) (region : RegionZone) :
    DTRegionMetric :=
  let dwellList := s.dwellTimes region.id
  let avgDwell := if dwellList.length > 0 then dwellList.sum / dwellList.length else 0
  let maxDwell :=
    match dwellList with
    | [] => 0
    | h :: t => t.foldl max h
  let minDwell :=
    match dwellList with
    | [] => 0
    | h :: t => t.foldl min h
  let currentDwells := (s.currentDwelling region.id).filterMap (fun t =>
    (s.trackEntryFrame t region.id).map (fun e =>
      (((s.frameCount : ℤ) - e : ℤ) : ℚ) / cfg.fps))
  { currentDwelling := (s.currentDwelling region.id).length
    currentDwellTimes := currentDwells
    totalCompleted := dwellList.length
    avgDwellSeconds := pyRound2 avgDwell
    maxDwellSeconds := pyRound2 maxDwell
    minDwellSeconds := pyRound2 minDwell }

/-- `DwellTimeFeature.get_metrics`.  `values()` unions range over the
distinct configured region ids (the only keys the feature ever touches). -/
def dtGetMetrics (cfg : DTConfig) (s : DTState) : DTMetrics :=
  let distinctIds := (cfg.regions.map RegionZone.id).dedup
  let allDwells := distinctIds.foldl (fun acc rid => acc ++ s.dwellTimes rid) []
  let overallAvg := if allDwells.length > 0 then allDwells.sum / allDwells.length else 0
  let overallMax :=
    match allDwells with
    | [] => 0
    | h :: t => t.foldl max h
  { regions := cfg.regions.map (fun region =>
      (region.id, dtRegionMetricOf cfg s region))
    insideTrackIds := sortInts
      ((cfg.regions.foldl (fun acc region =>
        acc ++ s.currentDwelling region.id) []).dedup)
    alertedTrackIds := sortInts
      (distinctIds.foldl (fun acc rid => acc ++ s.alertedTracks rid) [])
    overallAvgDwellSeconds := pyRound2 overallAvg
    overallMaxDwellSeconds := pyRound2 overallMax
    totalDwellsRecorded := allDwells.length
    alertsCount := s.alerts.length }

/-- `DwellTimeFeature.reset`: clear all tracking state. -/
def dtReset (_s : DTState) : DTState := dtInit

/-! ## Identity tracker (`src/yoi/tracking/object_tracker.py`,
`src/yoi/tracking/reid_service.py`)

Appearance embeddings are rational vectors (`List ℚ`).  The embedding
*extraction* (bbox crop + `cv2` HSV histogram) and the EMA renormalization
(`np.linalg.norm`, a real square root) are external image/float concerns;
they enter the model as per-frame oracles (`embOf`) and a configuration
function (`emaUpdate`), so every theorem below holds for every possible
behaviour of those components. -/

/-- Detection handed to `ObjectTracker.update` (pixel-space floats). -/
structure TDetection where
  x1 : ℚ
  y1 : ℚ
  x2 : ℚ
  y2 : ℚ
  confidence : ℚ
  classId : ℤ
  className : String
  centroidX : ℚ
  centroidY : ℚ
deriving Repr

/-- `TrackedObject` dataclass. -/
structure TrackedObject where
  trackId : ℤ
  className : String
  history : List (ℚ × ℚ)
  frameIndices : List ℤ
  lastFrameIdx : ℤ
  confidenceHistory : List ℚ
deriving Repr

/-- `TrackedObject.is_active`. -/
def TrackedObject.isActive (tr : TrackedObject) (currentFrame maxLostFrames : ℤ) :
    Bool :=
  decide (currentFrame - tr.lastFrameIdx ≤ maxLostFrames)

/-- `TrackedObject.current_center`: `history[-1] if history else (0, 0)`. -/
def TrackedObject.currentCenter (tr : TrackedObject) : ℚ × ℚ :=
  tr.history.getLastD (0, 0)

/-- Tracker configuration.  `emaUpdate` stands for
`LightweightReIDService.update_running_embedding` (its renormalization
divides by a real norm, kept abstract); it receives the stored embedding,
the new embedding and `reid_momentum`. -/
structure TrackerConfig where
  maxLostFrames : ℤ
  maxDistance : ℚ
  reidEnabled : Bool
  reidSimilarityThresh : ℚ
  reidMomentum : ℚ
  emaUpdate : Option (List ℚ) → List ℚ → ℚ → List ℚ

/-- `ObjectTracker` mutable state.  `allocLog` is a ghost audit field: it
records, in order, every id handed out from `next_track_id` (each
`self.next_track_id; self.next_track_id += 1` allocation site); it changes
no observable behaviour. -/
structure TrackerState where
  tracks : List (ℤ × TrackedObject)
  trackEmbeddings : List (ℤ × List ℚ)
  byteToStable : List (ℤ × ℤ)
  nextTrackId : ℤ
  frameIdx : ℤ
  allocLog : List ℤ

/-- `ObjectTracker.__init__` state: `next_track_id = 1`, `frame_idx = 0`. -/
def trackerInit : TrackerState :=
  { tracks := []
    trackEmbeddings := []
    byteToStable := []
    nextTrackId := 1
    frameIdx := 0
    allocLog := [] }

/-- `np.dot` on flat vectors. -/
def dotList : List ℚ → List ℚ → ℚ
  | a :: as, b :: bs => a * b + dotList as bs
  | _, _ => 0

/-- `LightweightReIDService.cosine_similarity`: `0.0` on shape mismatch,
else the dot product clipped to `[-1, 1]`. -/
def cosineSimilarity (a b : List ℚ) : ℚ :=
  if a.length ≠ b.length then 0
  else min 1 (max (-1) (dotList a b))

/-- `ObjectTracker._update_track_embedding`: no-op without Re-ID or without
an embedding, else store the EMA-updated running embedding. -/
def updateTrackEmbedding (cfg : TrackerConfig) (s : TrackerState)
    (stableTrackId : ℤ) (embedding : Option (List ℚ)) : TrackerState :=
  if cfg.reidEnabled then
    match embedding with
    | none => s
    | some emb =>
      let updated := cfg.emaUpdate (alookup s.trackEmbeddings stableTrackId) emb
        cfg.reidMomentum
      { s with trackEmbeddings := aupsert s.trackEmbeddings stableTrackId updated }
  else s

/-- One iteration of the Re-ID candidate scan of
`ObjectTracker._assign_stable_track_id` (lines 254–265): skip other
classes, still-active tracks and tracks without a stored embedding; keep
the first strict maximum among similarities that reach
`reid_similarity_thresh`. -/
def reidCandidateStep (cfg : TrackerConfig) (s : TrackerState)
    (className : String) (emb : List ℚ) (best : Option ℤ × ℚ)
    (p : ℤ × TrackedObject) : Option ℤ × ℚ :=
  if p.2.className ≠ className then best
  else if p.2.isActive s.frameIdx cfg.maxLostFrames then best
  else
    match alookup s.trackEmbeddings p.1 with
    | none => best
    | some te =>
      let sim := cosineSimilarity emb te
      if sim ≥ cfg.reidSimilarityThresh ∧ sim > best.2 then (some p.1, sim)
      else best

/-- The full Re-ID candidate scan: walk `self.tracks` in insertion order,
starting from `(None, -1.0)`. -/
def reidBestCandidate (cfg : TrackerConfig) (s : TrackerState)
    (className : String) (emb : List ℚ) : Option ℤ × ℚ :=
  s.tracks.foldl (reidCandidateStep cfg s className emb) (none, -1)

/-- Names the source's per-track eligibility conditions for Re-ID revival
(`track.class_name == class_name` and `not track.is_active(...)`). -/
def ReidCandidate (cfg : TrackerConfig) (s : TrackerState) (className : String)
    (p : ℤ × TrackedObject) : Prop :=
  p.2.className = className ∧
    p.2.isActive s.frameIdx cfg.maxLostFrames = false

/-- Soundness of a partial best of the Re-ID scan: if it names a track,
that track is an eligible candidate from `L` with a stored embedding whose
similarity reaches the threshold and equals the recorded best value. -/
def ReidGood (cfg : TrackerConfig) (s : TrackerState) (className : String)
    (emb : List ℚ) (L : List (ℤ × TrackedObject)) (b : Option ℤ × ℚ) : Prop :=
  ∀ tid, b.1 = some tid → cfg.reidSimilarityThresh ≤ b.2 ∧
    ∃ pr, pr ∈ L ∧ pr.1 = tid ∧ ReidCandidate cfg s className pr ∧
      ∃ te, alookup s.trackEmbeddings pr.1 = some te ∧
        cosineSimilarity emb te = b.2

/-- `ObjectTracker._assign_stable_track_id`: reuse an existing mapping; else
try to revive the best-matching dormant track (Re-ID); else allocate a
fresh monotonic stable id and create its `TrackedObject`. -/
def assignStableTrackId (cfg : TrackerConfig) (s : TrackerState)
    (byteTrackId : ℤ) (className : String) (centerX centerY : ℚ)
    (embedding : Option (List ℚ)) : ℤ × TrackerState :=
  match alookup s.byteToStable byteTrackId with
  | some mapped => (mapped, s)
  | none =>
    let best :=
      match embedding, cfg.reidEnabled with
      | some emb, true => reidBestCandidate cfg s className emb
      | _, _ => (none, -1)
    match best.1 with
    | some bestTrackId =>
      (bestTrackId,
        { s with byteToStable := aupsert s.byteToStable byteTrackId bestTrackId })
    | none =>
      let stableTrackId := s.nextTrackId
      (stableTrackId,
        { s with
          nextTrackId := s.nextTrackId + 1,
          byteToStable := aupsert s.byteToStable byteTrackId stableTrackId,
          tracks := aupsert s.tracks stableTrackId
            ⟨stableTrackId, className, [(centerX, centerY)], [s.frameIdx],
              s.frameIdx, []⟩,
          allocLog := s.allocLog ++ [stableTrackId] })

/-- One frame of input on the ByteTrack path.  `rows` is the output of the
external Ultralytics `BYTETracker.update` (one row per associated track,
shape 8 = `x1,y1,x2,y2,id,score,cls,det_idx` or shape 9 = xywha variant);
`frameGiven` models `frame is not None`; `embOf i` models
`_extract_reid_embedding(frame, detections[i])`. -/
structure ByteFrameInput where
  detections : List TDetection
  rows : List (List ℚ)
  frameGiven : Bool
  embOf : ℕ → Option (List ℚ)

/-- Row parsing of `_update_with_bytetrack` (lines 326–335): shape 8 rows
carry corners (center derived), shape 9 rows carry the center directly;
other shapes are skipped.  Yields `(center_x, center_y, track_id, score,
cls_id, det_idx)`. -/
def parseByteRow (row : List ℚ) : Option (ℚ × ℚ × ℚ × ℚ × ℚ × ℚ) :=
  match row with
  | [x1, y1, x2, y2, tid, score, cls, didx] =>
    some ((x1 + x2) / 2, (y1 + y2) / 2, tid, score, cls, didx)
  | [cx, cy, _, _, _, tid, score, cls, didx] =>
    some (cx, cy, tid, score, cls, didx)
  | _ => none

/-- `{int(det.class_id): det.class_name}` built once per frame
(later detections overwrite earlier ones, like a dict comprehension). -/
def classIdToName (dets : List TDetection) : List (ℤ × String) :=
  dets.foldl (fun m d => aupsert m d.classId d.className) []

/-- Accumulator of the row loop of `_update_with_bytetrack`. -/
structure ByteLoopAcc where
  state : TrackerState
  activeStableIds : List ℤ
  activeByteIds : List ℤ

/-- Lines 359–374 of `_update_with_bytetrack`: create the `TrackedObject`
for a first-seen stable id, or append to an existing one (the
`last_frame_idx` becomes the current frame either way). -/
def byteTouchTrack (s : TrackerState) (stableTrackId : ℤ) (className : String)
    (centerX centerY score : ℚ) : TrackerState :=
  match alookup s.tracks stableTrackId with
  | none =>
    let fresh : TrackedObject :=
      ⟨stableTrackId, className, [(centerX, centerY)], [s.frameIdx],
        s.frameIdx, [score]⟩
    { s with tracks := aupsert s.tracks stableTrackId fresh }
  | some existing =>
    let touched : TrackedObject :=
      { existing with
        className := className,
        history := existing.history ++ [(centerX, centerY)],
        frameIndices := existing.frameIndices ++ [s.frameIdx],
        lastFrameIdx := s.frameIdx,
        confidenceHistory := existing.confidenceHistory ++ [score] }
    { s with tracks := aupsert s.tracks stableTrackId touched }

/-- Body of the row loop of `_update_with_bytetrack` (lines 325–374). -/
def byteRowStep (cfg : TrackerConfig) (dets : List TDetection)
    (frameGiven : Bool) (embOf : ℕ → Option (List ℚ)) (clsMap : List (ℤ × String))
    (acc : ByteLoopAcc) (row : List ℚ) : ByteLoopAcc :=
  match parseByteRow row with
  | none => acc
  | some (centerX, centerY, tid, score, cls, didx) =>
    let s := acc.state
    let byteTrackId := pyInt tid
    let classId := pyInt cls
    let className := (alookup clsMap classId).getD (toString classId)
    let activeByteIds := sadd acc.activeByteIds byteTrackId
    let embedding : Option (List ℚ) :=
      if cfg.reidEnabled ∧ frameGiven then
        let detIndex := pyInt didx
        if 0 ≤ detIndex ∧ detIndex < dets.length then embOf detIndex.toNat
        else none
      else none
    let r := assignStableTrackId cfg s byteTrackId className centerX centerY embedding
    let stableTrackId := r.1
    let s := r.2
    let activeStableIds := sadd acc.activeStableIds stableTrackId
    let s := updateTrackEmbedding cfg s stableTrackId embedding
    let s := byteTouchTrack s stableTrackId className centerX centerY score
    ⟨s, activeStableIds, activeByteIds⟩

/-- The row loop of `_update_with_bytetrack`, shared between the update
itself and the associated-ids projection below. -/
def byteRowLoop (cfg : TrackerConfig) (s : TrackerState) (inp : ByteFrameInput) :
    ByteLoopAcc :=
  inp.rows.foldl
    (byteRowStep cfg inp.detections inp.frameGiven inp.embOf
      (classIdToName inp.detections))
    ⟨s, [], []⟩

/-- The associator ids that were associated with a detection on this frame:
the source's local `active_stable_ids` set. -/
def bytetrackAssociatedIds (cfg : TrackerConfig) (s : TrackerState)
    (inp : ByteFrameInput) : List ℤ :=
  (byteRowLoop cfg s inp).activeStableIds

/-- Largest key of the track dict (`max(self.tracks.keys())`), `0` if empty
(only used under a non-emptiness guard). -/
def maxTrackKey (tracks : List (ℤ × TrackedObject)) : ℤ :=
  match tracks.map Prod.fst with
  | [] => 0
  | h :: t => t.foldl max h

/-- `ObjectTracker._update_with_bytetrack` (without the trailing
`frame_idx` bump, which `update` performs): run the row loop, drop stale
tracks (and their embeddings), prune the byte→stable map, bump
`next_track_id` past the largest live key, and report every track whose
`last_frame_idx` equals the current frame. -/
def updateWithBytetrack (cfg : TrackerConfig) (s : TrackerState)
    (inp : ByteFrameInput) : TrackerState × List (ℤ × ℚ × ℚ × String) :=
  let acc := byteRowLoop cfg s inp
  let s := acc.state
  let keep : ℤ × TrackedObject → Bool := fun p =>
    decide (p.1 ∈ acc.activeStableIds) ||
      p.2.isActive s.frameIdx cfg.maxLostFrames
  let removedIds := (s.tracks.filter (fun p => !keep p)).map Prod.fst
  let s := { s with
    tracks := s.tracks.filter keep,
    trackEmbeddings := s.trackEmbeddings.filter
      (fun p => decide (p.1 ∉ removedIds)) }
  let s := { s with byteToStable := s.byteToStable.filter (fun p =>
    decide (p.1 ∈ acc.activeByteIds) || (alookup s.tracks p.2).isSome) }
  let s :=
    if s.tracks.isEmpty then s
    else { s with nextTrackId := max s.nextTrackId (maxTrackKey s.tracks + 1) }
  (s, (s.tracks.filter (fun p => decide (p.2.lastFrameIdx = s.frameIdx))).map
    (fun p => (p.1, (p.2.currentCenter.1, p.2.currentCenter.2, p.2.className))))

/-! ### Centroid fallback (`_update_with_centroid`) -/

/-- A match score `a - c·√s` (`a, c, s ∈ ℚ`, `c ≥ 0`, `s ≥ 0`): the exact
form of `0.65 * distance_score + 0.35 * reid_score` where `distance_score`
contains the real square root of the squared distance `s`. -/
def ScoreVal : Type := ℚ × ℚ × ℚ

/-- Exact comparison `a₁ - c₁√s₁ > a₂ - c₂√s₂`, i.e.
`√(c₁²s₁) < (a₁ - a₂) + √(c₂²s₂)`. -/
def scoreGT (v1 v2 : ScoreVal) : Bool :=
  ltAddSqrt (v1.2.1 * v1.2.1 * v1.2.2) (v1.1 - v2.1) (v2.2.1 * v2.2.1 * v2.2.2)

/-- One frame of input on the centroid fallback path. -/
structure CentroidFrameInput where
  detections : List TDetection
  frameGiven : Bool
  embOf : ℕ → Option (List ℚ)

/-- `{class_name: [(centroid_x, centroid_y, det, embedding), ...]}` grouping
loop of `_update_with_centroid` (lines 403–408), insertion-ordered. -/
def groupByClass (dets : List TDetection) (embs : List (Option (List ℚ))) :
    List (String × List (ℚ × ℚ × TDetection × Option (List ℚ))) :=
  (dets.zip embs).foldl (fun m p =>
    let entry := (p.1.centroidX, p.1.centroidY, p.1, p.2)
    match alookup m p.1.className with
    | some l => aupsert m p.1.className (l ++ [entry])
    | none => m ++ [(p.1.className, [entry])]) []

/-- Candidate scan of the matching loop (lines 429–460).  Distance gating
(`distance <= max_distance`, `distance > max_distance * 2`) uses the exact
rational renditions of the real square-root comparisons, and the match
score `0.65 * max(0, 1 - distance / max(max_distance, 1e-6)) + 0.35 *
reid_score` is carried in the exact `a - c·√s` form. -/
def centroidMatchStep (cfg : TrackerConfig) (s : TrackerState)
    (detX detY : ℚ) (detEmb : Option (List ℚ)) (matchedTracks : List ℤ)
    (best : Option ℤ × ScoreVal) (p : ℤ × TrackedObject) :
    Option ℤ × ScoreVal :=
  if p.1 ∈ matchedTracks then best
  else
    let tc := p.2.currentCenter
    let distSq := (detX - tc.1) * (detX - tc.1) + (detY - tc.2) * (detY - tc.2)
    let withinDistanceGate := !(sqrtGT distSq cfg.maxDistance)
    let reidScore : ℚ :=
      if cfg.reidEnabled then
        match detEmb with
        | some de =>
          match alookup s.trackEmbeddings p.1 with
          | some te => cosineSimilarity de te
          | none => 0
        | none => 0
      else 0
    let skip : Bool :=
      if withinDistanceGate then false
      else if ¬cfg.reidEnabled ∨ detEmb = none then true
      else sqrtGT distSq (cfg.maxDistance * 2) ||
        decide (reidScore < cfg.reidSimilarityThresh)
    if skip then best
    else
      let mpr := max cfg.maxDistance (1 / 1000000)
      let matchScore : ScoreVal :=
        if sqrtGT distSq mpr then ((65 / 100) * 0 + (35 / 100) * reidScore, 0, 0)
        else (65 / 100 + (35 / 100) * reidScore, (65 / 100) / mpr, distSq)
      if scoreGT matchScore best.2 then (some p.1, matchScore) else best

/-- Per-detection body of the matching loop of `_update_with_centroid`
(lines 423–470).  The active-track snapshot is taken once per class; a
track already matched this frame is skipped before its (mutated) fields
could be read, so reading centers from the snapshot agrees with the
source's live references. -/
def centroidDetStep (cfg : TrackerConfig)
    (activeSnapshot : List (ℤ × TrackedObject))
    (acc : TrackerState × List ℤ × List ℕ)
    (ide : ℕ × (ℚ × ℚ × TDetection × Option (List ℚ))) :
    TrackerState × List ℤ × List ℕ :=
  let s := acc.1
  let matchedTracks := acc.2.1
  let usedDetections := acc.2.2
  let detX := ide.2.1
  let detY := ide.2.2.1
  let det := ide.2.2.2.1
  let detEmb := ide.2.2.2.2
  let best := activeSnapshot.foldl
    (centroidMatchStep cfg s detX detY detEmb matchedTracks) (none, (-1, 0, 0))
  match best.1 with
  | none => (s, matchedTracks, usedDetections)
  | some bestTrackId =>
    match alookup s.tracks bestTrackId with
    | none => (s, matchedTracks, usedDetections)
    | some tr =>
      let touched : TrackedObject :=
        { tr with
          history := tr.history ++ [(detX, detY)],
          frameIndices := tr.frameIndices ++ [s.frameIdx],
          lastFrameIdx := s.frameIdx,
          confidenceHistory := tr.confidenceHistory ++ [det.confidence] }
      let s := { s with tracks := aupsert s.tracks bestTrackId touched }
      let s := updateTrackEmbedding cfg s bestTrackId detEmb
      (s, matchedTracks ++ [bestTrackId], usedDetections ++ [ide.1])

/-- The per-detection body of the new-track loop of
`_update_with_centroid` (lines 472–486): every detection not matched above
spawns a fresh track under `next_track_id` (allocation site). -/
def centroidSpawnStep (cfg : TrackerConfig) (className : String)
    (usedDetections : List ℕ) (s : TrackerState)
    (ide : ℕ × (ℚ × ℚ × TDetection × Option (List ℚ))) : TrackerState :=
  if ide.1 ∈ usedDetections then s
  else
    let detX := ide.2.1
    let detY := ide.2.2.1
    let det := ide.2.2.2.1
    let detEmb := ide.2.2.2.2
    let newTrackId := s.nextTrackId
    let s := { s with
      tracks := aupsert s.tracks newTrackId
        ⟨newTrackId, className, [(detX, detY)], [s.frameIdx], s.frameIdx,
          [det.confidence]⟩,
      allocLog := s.allocLog ++ [newTrackId] }
    let s := updateTrackEmbedding cfg s newTrackId detEmb
    { s with nextTrackId := s.nextTrackId + 1 }

/-- Per-class body of `_update_with_centroid`: snapshot the active tracks of
the class, run the matching loop, then spawn a fresh track for every
unmatched detection. -/
def centroidClassStep (cfg : TrackerConfig) (s : TrackerState)
    (g : String × List (ℚ × ℚ × TDetection × Option (List ℚ))) : TrackerState :=
  let className := g.1
  let classDetections := g.2
  let activeSnapshot := s.tracks.filter (fun p =>
    decide (p.2.className = className) &&
      p.2.isActive s.frameIdx cfg.maxLostFrames)
  let r := classDetections.enum.foldl (centroidDetStep cfg activeSnapshot)
    (s, [], [])
  classDetections.enum.foldl (centroidSpawnStep cfg className r.2.2) r.1

/-- `ObjectTracker._update_with_centroid` (without the trailing `frame_idx`
bump): group by class, match/spawn per class, drop inactive tracks (and
their embeddings), and report *every* remaining track. -/
def updateWithCentroid (cfg : TrackerConfig) (s : TrackerState)
    (inp : CentroidFrameInput) : TrackerState × List (ℤ × ℚ × ℚ × String) :=
  let embs := (List.range inp.detections.length).map (fun i =>
    if cfg.reidEnabled ∧ inp.frameGiven then inp.embOf i else none)
  let s := (groupByClass inp.detections embs).foldl (centroidClassStep cfg) s
  let removedIds := (s.tracks.filter
    (fun p => !(p.2.isActive s.frameIdx cfg.maxLostFrames))).map Prod.fst
  let s := { s with
    tracks := s.tracks.filter (fun p => p.2.isActive s.frameIdx cfg.maxLostFrames),
    trackEmbeddings := s.trackEmbeddings.filter
      (fun p => decide (p.1 ∉ removedIds)) }
  (s, s.tracks.map (fun p =>
    (p.1, (p.2.currentCenter.1, p.2.currentCenter.2, p.2.className))))

/-- `ObjectTracker.update` on the ByteTrack path: delegate, then
`self.frame_idx += 1`. -/
def trackerUpdateByte (cfg : TrackerConfig) (s : TrackerState)
    (inp : ByteFrameInput) : TrackerState × List (ℤ × ℚ × ℚ × String) :=
  let r := updateWithBytetrack cfg s inp
  ({ r.1 with frameIdx := r.1.frameIdx + 1 }, r.2)

/-- `ObjectTracker.update` on the centroid fallback path. -/
def trackerUpdateCentroid (cfg : TrackerConfig) (s : TrackerState)
    (inp : CentroidFrameInput) : TrackerState × List (ℤ × ℚ × ℚ × String) :=
  let r := updateWithCentroid cfg s inp
  ({ r.1 with frameIdx := r.1.frameIdx + 1 }, r.2)

/-- A whole process lifetime on the ByteTrack path. -/
def runTrackerByte (cfg : TrackerConfig) (inputs : List ByteFrameInput) :
    TrackerState :=
  inputs.foldl (fun s inp => (trackerUpdateByte cfg s inp).1) trackerInit

/-- A whole process lifetime on the centroid fallback path. -/
def runTrackerCentroid (cfg : TrackerConfig) (inputs : List CentroidFrameInput) :
    TrackerState :=
  inputs.foldl (fun s inp => (trackerUpdateCentroid cfg s inp).1) trackerInit

/-- The id-allocation invariant: the ghost log of ids handed out from
`next_track_id` is strictly increasing, and every logged id is below the
current `next_track_id`. -/
def AllocInv (s : TrackerState) : Prop :=
  s.allocLog.Pairwise (· < ·) ∧ ∀ i ∈ s.allocLog, i < s.nextTrackId

/-! ## Multi-frame runners and concrete scenario instances -/

/-- Run `RegionCrowdFeature.process` over a list of `(frame_idx, detections)`
inputs. -/
def rcRun (cfg : RCConfig) (s : RCState) (inputs : List (ℤ × List Detection)) :
    RCState :=
  inputs.foldl (fun s inp => (rcProcess cfg s inp.2 inp.1).1) s

/-- The spec's triangle region `(0.1,0.1)–(0.9,0.1)–(0.5,0.9)`. -/
def triangleCoords : List (ℚ × ℚ) :=
  [(1 / 10, 1 / 10), (9 / 10, 1 / 10), (1 / 2, 9 / 10)]

/-- Region-crowd cooldown scenario configuration
(`alert_threshold = warning_threshold = 3`, `critical_threshold = 6`,
`cooldown_frames = 5 s × 30 fps = 150`). -/
def rcScenarioCfg : RCConfig :=
  { regions := [⟨0, triangleCoords⟩]
    centroidMode := "mid_centre"
    alertThreshold := 3
    warningThreshold := 3
    criticalThreshold := 6
    cooldownFrames := 150 }

/-- A detection whose `mid_centre` reference point is `(0.5, 0.5)`, inside
the triangle region. -/
def centerDet (trackId : ℤ) : Detection :=
  ⟨trackId, 0, "person", 9 / 10, 2 / 5, 2 / 5, 3 / 5, 3 / 5⟩

/-- Four tracks inside the region, fed at every frame of the scenario. -/
def rcScenarioDets : List Detection :=
  [centerDet 1, centerDet 2, centerDet 3, centerDet 4]

/-- Frames `a+1, a+2, …, a+n` of the cooldown scenario. -/
def rcScenarioInputs (a : ℤ) (n : ℕ) : List (ℤ × List Detection) :=
  (List.range n).map (fun k => (a + 1 + (k : ℤ), rcScenarioDets))

/-- Dwell-time scenario region and configuration (`fps = 30`,
`min_dwell_frames = 3 s × 30`, `alert_threshold_frames = 10 s × 30`). -/
def dtRegionX : RegionZone := ⟨0, triangleCoords⟩

def dtCfgX : DTConfig :=
  { regions := [dtRegionX]
    centroidMode := "mid_centre"
    fps := 30
    minDwellFrames := 90
    alertThresholdFrames := 300 }

/-- A line-cross configuration with one horizontal line at `y = 0.3`
(direction `downward`), used for the colinear-endpoint scenario. -/
def lcLineX : LineZone :=
  ⟨0, [(0, 3 / 10), (1, 3 / 10)], "horizontal", "downward"⟩

def lcCfgX : LCConfig :=
  { lines := [lcLineX]
    centroidMode := "mid_centre"
    lostThreshold := 30
    allowRecounting := false
    maxPositionJump := 1 / 4
    inThreshold := 5
    outThreshold := 5 }

/-- A detection whose `mid_centre` reference point is exactly on `lcLineX`
(`(0.5, 0.3)`). -/
def lcDetOnLine : Detection :=
  ⟨7, 0, "person", 9 / 10, 2 / 5, 1 / 5, 3 / 5, 2 / 5⟩

/-- The same track one frame later, with reference point `(0.5, 0.5)`
strictly below the line. -/
def lcDetBelow : Detection :=
  ⟨7, 0, "person", 9 / 10, 2 / 5, 2 / 5, 3 / 5, 3 / 5⟩

/-- The state of `lcCfgX` after the two-frame colinear-start trajectory. -/
def lcColinearRun : LCState :=
  (lcProcess lcCfgX (lcProcess lcCfgX lcInit [lcDetOnLine] 1).1 [lcDetBelow] 2).1

/-- A line-cross state in which track 7 has a stored previous point
`(0.1, 0.1)` and sits in every line's already-counted set (used to witness
the ghost-jump guard). -/
def lcGuardWitnessState : LCState :=
  { lcInit with
    trackPositions := [(7, [(1 / 10, 1 / 10)])]
    trackLastSeen := [(7, 1)]
    crossedTracks := fun _ => [7] }

/-- Centroid-tracker counterexample configuration (Re-ID disabled). -/
def ctCfgX : TrackerConfig :=
  { maxLostFrames := 30
    maxDistance := 50
    reidEnabled := false
    reidSimilarityThresh := 82 / 100
    reidMomentum := 35 / 100
    emaUpdate := fun _ newValue _ => newValue }

/-- A pixel-space detection of class `person` at centroid `(10, 10)`. -/
def ctDetX : TDetection := ⟨5, 5, 15, 15, 9 / 10, 0, "person", 10, 10⟩

/-- One frame with `ctDetX`, then one frame with an empty detection list. -/
def ctFrame1 : CentroidFrameInput := ⟨[ctDetX], true, fun _ => none⟩

def ctFrame2 : CentroidFrameInput := ⟨[], true, fun _ => none⟩

/-- The result mapping of the second (empty) centroid update. -/
def ctSecondResult : List (ℤ × ℚ × ℚ × String) :=
  (trackerUpdateCentroid ctCfgX
    (trackerUpdateCentroid ctCfgX trackerInit ctFrame1).1 ctFrame2).2

/-- A tracker configuration with Re-ID enabled
(`reid_similarity_thresh = 0.82`). -/
def reidCfgX : TrackerConfig :=
  { maxLostFrames := 30
    maxDistance := 50
    reidEnabled := true
    reidSimilarityThresh := 82 / 100
    reidMomentum := 35 / 100
    emaUpdate := fun _ newValue _ => newValue }

/-- A dormant `person` track (id 3, last seen at frame 0). -/
def reidTrackX : TrackedObject := ⟨3, "person", [(10, 10)], [0], 0, [9 / 10]⟩

/-- A tracker state at frame 40 holding only the dormant track 3 with a
stored unit embedding. -/
def reidStateX : TrackerState :=
  { tracks := [(3, reidTrackX)]
    trackEmbeddings := [(3, [1])]
    byteToStable := []
    nextTrackId := 4
    frameIdx := 40
    allocLog := [1, 2, 3] }

/-- Loop invariant of the ByteTrack row loop, tying the local
`active_stable_ids` set to the tracks last touched on the current frame
`F`: a live track carries `last_frame_idx = F` exactly when its stable id
was associated with a detection this frame. -/
def ByteKeyInv (F : ℤ) (acc : ByteLoopAcc) : Prop :=
  acc.state.frameIdx = F ∧
  (∀ pr ∈ acc.state.tracks, pr.2.lastFrameIdx = F →
    pr.1 ∈ acc.activeStableIds) ∧
  (∀ tid ∈ acc.activeStableIds,
    ∃ tr, (tid, tr) ∈ acc.state.tracks ∧ tr.lastFrameIdx = F)

/-- A ByteTrack frame with no detections and no associator rows. -/
def byteInpX : ByteFrameInput := ⟨[], [], false, fun _ => none⟩

/-! ## Helper lemmas -/

theorem foldl_id {α β : Type} (l : List β) (a : α) :
    l.foldl (fun acc _ => acc) a = a := by
  induction l generalizing a with
  | nil => rfl
  | cons h t ih => exact ih a

theorem pyRound2_zero : pyRound2 0 = 0 := by norm_num [pyRound2]

theorem foldlPreserve {α β : Type} {P : α → Prop} {f : α → β → α}
    (hf : ∀ a b, P a → P (f a b)) :
    ∀ (l : List β) (a : α), P a → P (l.foldl f a) := by
  intro l
  induction l with
  | nil => exact fun a ha => ha
  | cons h t ih => exact fun a ha => ih _ (hf a h ha)

theorem dtRegionStep_frameCount (cfg : DTConfig) (frameIdx : ℤ)
    (det : Detection) (c : ℚ × ℚ) (sca : DTState × (ℤ → List ℤ) × List DTAlert)
    (region : RegionZone) :
    (dtRegionStep cfg frameIdx det c sca region).1.frameCount =
      sca.1.frameCount := by
  simp only [dtRegionStep]
  split_ifs <;> rfl

theorem dtExitStep_frameCount (cfg : DTConfig) (frameIdx r : ℤ) (s : DTState)
    (t : ℤ) : (dtExitStep cfg frameIdx r s t).frameCount = s.frameCount := by
  cases h : s.trackEntryFrame t r with
  | none => simp [dtExitStep, h]
  | some e =>
    simp only [dtExitStep, h]
    split_ifs <;> rfl

theorem dtDetPhase_frameCount (cfg : DTConfig) (s : DTState)
    (dets : List Detection) (frameIdx : ℤ) :
    (dtDetPhase cfg s dets frameIdx).1.frameCount = s.frameCount := by
  refine foldlPreserve
    (P := fun sca : DTState × (ℤ → List ℤ) × List DTAlert =>
      sca.1.frameCount = s.frameCount) ?_ dets (s, fun _ => [], []) rfl
  intro a det ha
  refine foldlPreserve
    (P := fun sca : DTState × (ℤ → List ℤ) × List DTAlert =>
      sca.1.frameCount = s.frameCount) ?_ cfg.regions a ha
  intro a' region ha'
  rw [dtRegionStep_frameCount]
  exact ha'

theorem dtExitPhase_frameCount (cfg : DTConfig) (frameIdx : ℤ)
    (cur : ℤ → List ℤ) (s : DTState) :
    (dtExitPhase cfg frameIdx cur s).frameCount = s.frameCount := by
  refine foldlPreserve (P := fun st : DTState => st.frameCount = s.frameCount)
    ?_ ((cfg.regions.map RegionZone.id).dedup) s rfl
  intro a rid ha
  refine foldlPreserve (P := fun st : DTState => st.frameCount = s.frameCount)
    ?_ _ a ha
  intro a' t ha'
  rw [dtExitStep_frameCount]
  exact ha'

theorem dtProcess_frameCount (cfg : DTConfig) (s : DTState)
    (dets : List Detection) (frameIdx : ℤ) :
    (dtProcess cfg s dets frameIdx).1.frameCount = s.frameCount + 1 := by
  simp only [dtProcess]
  rw [dtExitPhase_frameCount, dtDetPhase_frameCount]

theorem triangleCoords_length : triangleCoords.length = 3 := rfl

theorem centerDet_trackId (t : ℤ) : (centerDet t).trackId = t := rfl

theorem pip_triangle_center : pointInPolygon (1 / 2, 1 / 2) triangleCoords = true := by
  norm_num [pointInPolygon, triangleCoords, pipEdges, pipEdgeStep, min_def, max_def]

theorem getCentroid_mid (det : Detection) :
    getCentroid "mid_centre" det = ((det.x1 + det.x2) / 2, (det.y1 + det.y2) / 2) := rfl

theorem centerDet_centroid (t : ℤ) :
    getCentroid "mid_centre" (centerDet t) = (1 / 2, 1 / 2) := by
  rw [getCentroid_mid]
  norm_num [centerDet, Prod.ext_iff]

end Yoi

namespace Yoi

/-- C9: for each of the three features, `reset()` followed by
`get_metrics()` yields exactly the metrics of a freshly constructed feature
with the same configuration — with all totals, per-zone counts,
completed-dwell lists, active-track counts and `alerts_count` zero or
empty. -/
theorem C9_reset_returns_all_zero_baseline :
    (∀ (cfg : LCConfig) (s : LCState),
      lcGetMetrics cfg (lcReset s) = lcGetMetrics cfg lcInit ∧
      (lcGetMetrics cfg (lcReset s)).totalIn = 0 ∧
      (lcGetMetrics cfg (lcReset s)).totalOut = 0 ∧
      (lcGetMetrics cfg (lcReset s)).netCount = 0 ∧
      (lcGetMetrics cfg (lcReset s)).activeTracks = 0 ∧
      (lcGetMetrics cfg (lcReset s)).alertsCount = 0 ∧
      ∀ e ∈ (lcGetMetrics cfg (lcReset s)).lines, e.2 = ⟨0, 0, 0⟩) ∧
    (∀ (cfg : RCConfig) (s : RCState),
      rcGetMetrics cfg (rcReset s) = rcGetMetrics cfg rcInit ∧
      (rcGetMetrics cfg (rcReset s)).totalCurrent = 0 ∧
      (rcGetMetrics cfg (rcReset s)).totalMax = 0 ∧
      (rcGetMetrics cfg (rcReset s)).insideTrackIds = [] ∧
      (rcGetMetrics cfg (rcReset s)).alertsCount = 0 ∧
      ∀ e ∈ (rcGetMetrics cfg (rcReset s)).regions,
        e.2.currentCount = 0 ∧ e.2.maxCount = 0 ∧ e.2.activeTracks = 0) ∧
    (∀ (cfg : DTConfig) (s : DTState),
      dtGetMetrics cfg (dtReset s) = dtGetMetrics cfg dtInit ∧
      (dtGetMetrics cfg (dtReset s)).insideTrackIds = [] ∧
      (dtGetMetrics cfg (dtReset s)).alertedTrackIds = [] ∧
      (dtGetMetrics cfg (dtReset s)).totalDwellsRecorded = 0 ∧
      (dtGetMetrics cfg (dtReset s)).alertsCount = 0 ∧
      (dtGetMetrics cfg (dtReset s)).overallAvgDwellSeconds = 0 ∧
      ∀ e ∈ (dtGetMetrics cfg (dtReset s)).regions,
        e.2.currentDwelling = 0 ∧ e.2.currentDwellTimes = [] ∧
          e.2.totalCompleted = 0) := by
  refine ⟨fun cfg s => ?_, fun cfg s => ?_, fun cfg s => ?_⟩
  · refine ⟨rfl, rfl, rfl, rfl, rfl, rfl, ?_⟩
    intro e he
    simp only [lcGetMetrics, lcReset, lcInit, List.mem_map] at he
    obtain ⟨line, _, rfl⟩ := he
    rfl
  · refine ⟨rfl, ?_, ?_, ?_, rfl, ?_⟩
    · simp [rcGetMetrics, rcReset, rcInit, List.map_const']
    · simp [rcGetMetrics, rcReset, rcInit, List.map_const']
    · simp [rcGetMetrics, rcReset, rcInit, foldl_id, sortInts]
    · intro e he
      simp only [rcGetMetrics, rcReset, rcInit, List.mem_map] at he
      obtain ⟨ir, _, rfl⟩ := he
      exact ⟨rfl, rfl, rfl⟩
  · refine ⟨rfl, ?_, ?_, ?_, rfl, ?_, ?_⟩
    · simp [dtGetMetrics, dtReset, dtInit, foldl_id, sortInts]
    · simp [dtGetMetrics, dtReset, dtInit, foldl_id, sortInts]
    · simp [dtGetMetrics, dtReset, dtInit, foldl_id]
    · simp [dtGetMetrics, dtReset, dtInit, foldl_id, pyRound2_zero]
    · intro e he
      simp only [dtGetMetrics, dtReset, dtInit, List.mem_map] at he
      obtain ⟨region, _, rfl⟩ := he
      exact ⟨rfl, rfl, rfl⟩

theorem lcDetOnLine_centroid :
    getCentroid "mid_centre" lcDetOnLine = (1 / 2, 3 / 10) := by
  rw [getCentroid_mid]
  norm_num [lcDetOnLine, Prod.ext_iff]

theorem lcDetOnLine_trackId : lcDetOnLine.trackId = 7 := rfl

theorem lcDetBelow_trackId : lcDetBelow.trackId = 7 := rfl

theorem lcDetBelow_centroid :
    getCentroid "mid_centre" lcDetBelow = (1 / 2, 1 / 2) := by
  rw [getCentroid_mid]
  norm_num [lcDetBelow, Prod.ext_iff]

theorem ccw_on_line_below_1 :
    ccw (1 / 2, 3 / 10) ((0 : ℚ), (3 : ℚ) / 10) (1, 3 / 10) = false := by
  simp only [ccw, decide_eq_false_iff_not]
  norm_num

theorem ccw_on_line_below_2 :
    ccw (1 / 2, 1 / 2) ((0 : ℚ), (3 : ℚ) / 10) (1, 3 / 10) = true := by
  simp only [ccw, decide_eq_true_eq]
  norm_num

theorem ccw_on_line_below_3 :
    ccw (1 / 2, 3 / 10) (1 / 2, 1 / 2) ((0 : ℚ), (3 : ℚ) / 10) = true := by
  simp only [ccw, decide_eq_true_eq]
  norm_num

theorem ccw_on_line_below_4 :
    ccw (1 / 2, 3 / 10) (1 / 2, 1 / 2) ((1 : ℚ), (3 : ℚ) / 10) = false := by
  simp only [ccw, decide_eq_false_iff_not]
  norm_num

theorem seg_on_line_below :
    segmentsIntersect (1 / 2, 3 / 10) (1 / 2, 1 / 2)
      ((0 : ℚ), (3 : ℚ) / 10) (1, 3 / 10) = true := by
  simp only [segmentsIntersect, ccw_on_line_below_1, ccw_on_line_below_2,
    ccw_on_line_below_3, ccw_on_line_below_4]
  rfl

theorem check_on_line_below :
    checkLineCrossing (1 / 2, 3 / 10) (1 / 2, 1 / 2)
      ((0 : ℚ), (3 : ℚ) / 10) (1, 3 / 10) "horizontal" "downward" =
      some "in" := by
  simp only [checkLineCrossing, seg_on_line_below, if_true]
  norm_num

theorem sqrt_small_jump : sqrtGT ((1 : ℚ) / 25) ((1 : ℚ) / 4) = false := by
  simp only [sqrtGT, Bool.or_eq_false_iff, decide_eq_false_iff_not]
  norm_num

theorem alookup_aupsert {α β : Type} [DecidableEq α] (l : List (α × β))
    (k : α) (v : β) : alookup (aupsert l k v) k = some v := by
  induction l with
  | nil => simp [aupsert, alookup]
  | cons hd tl ih =>
    obtain ⟨k', v'⟩ := hd
    by_cases hk : k' = k
    · simp [aupsert, alookup, hk]
    · simp only [aupsert, if_neg hk, alookup]
      exact ih

theorem alookup_aupsert_ne {α β : Type} [DecidableEq α] (l : List (α × β))
    (k k' : α) (v : β) (h : k' ≠ k) :
    alookup (aupsert l k v) k' = alookup l k' := by
  induction l with
  | nil =>
    simp only [aupsert, alookup]
    rw [if_neg (fun hh : k = k' => h hh.symm)]
  | cons hd tl ih =>
    obtain ⟨k0, v0⟩ := hd
    by_cases hk : k0 = k
    · subst hk
      simp only [aupsert, if_pos rfl, alookup]
      rw [if_neg (fun hh => h hh.symm), if_neg (fun hh => h hh.symm)]
    · simp only [aupsert, if_neg hk, alookup]
      by_cases hk' : k0 = k'
      · rw [if_pos hk', if_pos hk']
      · rw [if_neg hk', if_neg hk']
        exact ih

theorem mem_sadd_of_mem {α : Type} [DecidableEq α] {l : List α} {a b : α}
    (h : b ∈ l) : b ∈ sadd l a := by
  unfold sadd
  split_ifs
  · exact h
  · simp [h]

theorem mem_sadd_self {α : Type} [DecidableEq α] (l : List α) (a : α) :
    a ∈ sadd l a := by
  unfold sadd
  split_ifs with h
  · exact h
  · simp

theorem not_mem_sdiscard {α : Type} [DecidableEq α] (l : List α) (a : α) :
    a ∉ sdiscard l a := by
  simp [sdiscard]

theorem lcLineStep_trackPositions (cfg : LCConfig) (frameIdx trackId : ℤ)
    (prevP currP : ℚ × ℚ) (sa : LCState × List LCAlert) (line : LineZone) :
    (lcLineStep cfg frameIdx trackId prevP currP sa line).1.trackPositions =
      sa.1.trackPositions := by
  simp only [lcLineStep]
  repeat' split
  all_goals rfl

theorem lcLineStep_trackLastSeen (cfg : LCConfig) (frameIdx trackId : ℤ)
    (prevP currP : ℚ × ℚ) (sa : LCState × List LCAlert) (line : LineZone) :
    (lcLineStep cfg frameIdx trackId prevP currP sa line).1.trackLastSeen =
      sa.1.trackLastSeen := by
  simp only [lcLineStep]
  repeat' split
  all_goals rfl

theorem lcLineStep_crossed_mono (cfg : LCConfig) (frameIdx trackId : ℤ)
    (prevP currP : ℚ × ℚ) (sa : LCState × List LCAlert) (line : LineZone)
    (lid t' : ℤ) (h : t' ∈ sa.1.crossedTracks lid) :
    t' ∈ (lcLineStep cfg frameIdx trackId prevP currP sa line).1.crossedTracks
      lid := by
  simp only [lcLineStep]
  repeat' split
  all_goals simp only []
  all_goals try exact h
  all_goals split_ifs <;> first
    | exact mem_sadd_of_mem h
    | exact h

theorem lcLineLoop_trackPositions (cfg : LCConfig) (frameIdx trackId : ℤ)
    (prevP currP : ℚ × ℚ) (sa : LCState × List LCAlert)
    (lines : List LineZone) :
    ((lines.foldl (lcLineStep cfg frameIdx trackId prevP currP)
      sa)).1.trackPositions = sa.1.trackPositions :=
  foldlPreserve
    (P := fun x : LCState × List LCAlert =>
      x.1.trackPositions = sa.1.trackPositions)
    (fun a b ha => by
      dsimp only
      rw [lcLineStep_trackPositions]
      exact ha) lines sa rfl

theorem lcLineLoop_crossed_mono (cfg : LCConfig) (frameIdx trackId : ℤ)
    (prevP currP : ℚ × ℚ) (sa : LCState × List LCAlert)
    (lines : List LineZone) (lid t' : ℤ) (h : t' ∈ sa.1.crossedTracks lid) :
    t' ∈ ((lines.foldl (lcLineStep cfg frameIdx trackId prevP currP)
      sa)).1.crossedTracks lid :=
  foldlPreserve
    (P := fun x : LCState × List LCAlert => t' ∈ x.1.crossedTracks lid)
    (fun a b ha => lcLineStep_crossed_mono cfg frameIdx trackId prevP currP
      a b lid t' ha) lines sa h

/-- C3: the ghost-jump guard of `LineCrossFeature.process` (lines 209–237).
For a tracked detection with a stored previous point `p`: when the
Euclidean distance from `p` to the new reference point exceeds
`max_position_jump` (the source's `(dx*dx+dy*dy)**0.5 > max_position_jump`,
rendered by the equivalent rational test `sqrtGT`), the position history is
discarded before the new point is appended — afterwards it holds just the
new point, no crossing is evaluated on this update (counters and emitted
alerts unchanged) — and the track id is removed from every per-line
already-counted set.  When the distance does not exceed the bound, the
guard changes nothing: the history is kept (the new point is appended to
it) and no already-counted set loses any member. -/
theorem C3_ghost_jump_guard_resets_history_and_counted_sets :
    ∀ (cfg : LCConfig) (frameIdx : ℤ) (s : LCState) (acc : List LCAlert)
      (det : Detection) (pos0 : List (ℚ × ℚ)) (p : ℚ × ℚ),
      (alookup s.trackPositions det.trackId).getD [] = pos0 →
      pos0.getLast? = some p →
      (sqrtGT (((getCentroid cfg.centroidMode det).1 - p.1) *
            ((getCentroid cfg.centroidMode det).1 - p.1) +
          ((getCentroid cfg.centroidMode det).2 - p.2) *
            ((getCentroid cfg.centroidMode det).2 - p.2))
          cfg.maxPositionJump = true →
        alookup (lcDetStep cfg frameIdx (s, acc) det).1.trackPositions
            det.trackId = some [getCentroid cfg.centroidMode det] ∧
        (∀ lineId : ℤ, det.trackId ∉
          (lcDetStep cfg frameIdx (s, acc) det).1.crossedTracks lineId) ∧
        (lcDetStep cfg frameIdx (s, acc) det).1.totalIn = s.totalIn ∧
        (lcDetStep cfg frameIdx (s, acc) det).1.totalOut = s.totalOut ∧
        (lcDetStep cfg frameIdx (s, acc) det).1.inCounts = s.inCounts ∧
        (lcDetStep cfg frameIdx (s, acc) det).1.outCounts = s.outCounts ∧
        (lcDetStep cfg frameIdx (s, acc) det).2 = acc) ∧
      (sqrtGT (((getCentroid cfg.centroidMode det).1 - p.1) *
            ((getCentroid cfg.centroidMode det).1 - p.1) +
          ((getCentroid cfg.centroidMode det).2 - p.2) *
            ((getCentroid cfg.centroidMode det).2 - p.2))
          cfg.maxPositionJump = false →
        alookup (lcDetStep cfg frameIdx (s, acc) det).1.trackPositions
            det.trackId = some
          (if (pos0 ++ [getCentroid cfg.centroidMode det]).length > 10 then
            (pos0 ++ [getCentroid cfg.centroidMode det]).drop
              ((pos0 ++ [getCentroid cfg.centroidMode det]).length - 10)
          else pos0 ++ [getCentroid cfg.centroidMode det]) ∧
        ∀ (lineId t' : ℤ), t' ∈ s.crossedTracks lineId →
          t' ∈ (lcDetStep cfg frameIdx (s, acc) det).1.crossedTracks lineId) := by
  intro cfg frameIdx s acc det pos0 p h0 h1
  constructor
  · intro hsq
    simp only [lcDetStep, h0, h1, hsq]
    refine ⟨?_, ?_, rfl, rfl, rfl, rfl, rfl⟩
    · simpa using alookup_aupsert s.trackPositions det.trackId
        [getCentroid cfg.centroidMode det]
    · intro lineId
      exact not_mem_sdiscard _ _
  · intro hsq
    simp only [lcDetStep, h0, h1, hsq, if_neg Bool.false_ne_true]
    constructor
    · rw [lcLineLoop_trackPositions]
      exact alookup_aupsert _ _ _
    · intro lineId t' ht'
      exact lcLineLoop_crossed_mono _ _ _ _ _ _ _ _ _ ht'

theorem C3_ghost_jump_guard_resets_history_and_counted_sets_witness :
    alookup (lcDetStep lcCfgX 2 (lcGuardWitnessState, [])
        lcDetBelow).1.trackPositions 7 = some [(1 / 2, 1 / 2)] ∧
    ∀ lineId : ℤ, (7 : ℤ) ∉ (lcDetStep lcCfgX 2 (lcGuardWitnessState, [])
        lcDetBelow).1.crossedTracks lineId := by
  have hc : getCentroid lcCfgX.centroidMode lcDetBelow = (1 / 2, 1 / 2) :=
    lcDetBelow_centroid
  have h := (C3_ghost_jump_guard_resets_history_and_counted_sets lcCfgX 2
    lcGuardWitnessState [] lcDetBelow [(1 / 10, 1 / 10)] (1 / 10, 1 / 10)
    (by simp [lcGuardWitnessState, lcInit, alookup, lcDetBelow_trackId]) rfl).1
    (by rw [hc]
        simp only [sqrtGT, Bool.or_eq_true, decide_eq_true_eq]
        right
        norm_num [lcCfgX])
  rw [lcDetBelow_trackId, hc] at h
  exact ⟨h.1, h.2.1⟩

/-- C6: in `LineCrossFeature.process`, on every counted crossing (one that
is not suppressed by the already-counted set) the per-line counter of the
crossing's direction is incremented, and an alert of the matching kind
(`line_crossing_in` / `line_crossing_out`) is emitted exactly when the
updated counter is ≥ the configured threshold (`in_warning_threshold` /
`out_warning_threshold`) — so the first alert fires the moment the counter
reaches the threshold and every further counted crossing past it also
emits one; an update that crosses nothing changes neither counters nor
alerts. -/
theorem C6_counted_crossing_increments_and_alerts_iff_ge_threshold :
    ∀ (cfg : LCConfig) (frameIdx trackId : ℤ) (prevP currP : ℚ × ℚ)
      (sa : LCState × List LCAlert) (line : LineZone)
      (lineStart lineEnd : ℚ × ℚ) (rest : List (ℚ × ℚ)),
      line.coords = lineStart :: lineEnd :: rest →
      ¬(cfg.allowRecounting = false ∧ trackId ∈ sa.1.crossedTracks line.id) →
      ((checkLineCrossing prevP currP lineStart lineEnd line.orientation
          line.direction = some "in" →
        (lcLineStep cfg frameIdx trackId prevP currP sa line).1.inCounts
            line.id = sa.1.inCounts line.id + 1 ∧
        (lcLineStep cfg frameIdx trackId prevP currP sa line).1.totalIn =
          sa.1.totalIn + 1 ∧
        (lcLineStep cfg frameIdx trackId prevP currP sa line).2 =
          (if sa.1.inCounts line.id + 1 ≥ cfg.inThreshold then
            sa.2 ++ [⟨"line_crossing_in", line.id, sa.1.inCounts line.id + 1,
              cfg.inThreshold, frameIdx, trackId⟩]
          else sa.2)) ∧
       (checkLineCrossing prevP currP lineStart lineEnd line.orientation
          line.direction = some "out" →
        (lcLineStep cfg frameIdx trackId prevP currP sa line).1.outCounts
            line.id = sa.1.outCounts line.id + 1 ∧
        (lcLineStep cfg frameIdx trackId prevP currP sa line).1.totalOut =
          sa.1.totalOut + 1 ∧
        (lcLineStep cfg frameIdx trackId prevP currP sa line).2 =
          (if sa.1.outCounts line.id + 1 ≥ cfg.outThreshold then
            sa.2 ++ [⟨"line_crossing_out", line.id, sa.1.outCounts line.id + 1,
              cfg.outThreshold, frameIdx, trackId⟩]
          else sa.2)) ∧
       (checkLineCrossing prevP currP lineStart lineEnd line.orientation
          line.direction = none →
        lcLineStep cfg frameIdx trackId prevP currP sa line = sa)) := by
  intro cfg frameIdx trackId prevP currP sa line lineStart lineEnd rest
    hcoords hskip
  refine ⟨fun hcheck => ?_, fun hcheck => ?_, fun hcheck => ?_⟩
  · simp only [lcLineStep, hcoords, if_neg hskip, hcheck, eq_self_iff_true,
      if_true]
    refine ⟨?_, ?_, ?_⟩ <;> split_ifs <;> simp
  · simp only [lcLineStep, hcoords, if_neg hskip, hcheck,
      if_neg (by decide : ¬("out" : String) = "in"), eq_self_iff_true,
      if_true]
    refine ⟨?_, ?_, ?_⟩ <;> split_ifs <;> simp
  · simp only [lcLineStep, hcoords, if_neg hskip, hcheck]

theorem C6_counted_crossing_increments_and_alerts_iff_ge_threshold_witness :
    (lcLineStep lcCfgX 2 7 (1 / 2, 3 / 10) (1 / 2, 1 / 2) (lcInit, [])
        lcLineX).1.inCounts lcLineX.id = lcInit.inCounts lcLineX.id + 1 ∧
    (lcLineStep lcCfgX 2 7 (1 / 2, 3 / 10) (1 / 2, 1 / 2) (lcInit, [])
        lcLineX).1.totalIn = lcInit.totalIn + 1 ∧
    (lcLineStep lcCfgX 2 7 (1 / 2, 3 / 10) (1 / 2, 1 / 2) (lcInit, [])
        lcLineX).2 =
      (if lcInit.inCounts lcLineX.id + 1 ≥ lcCfgX.inThreshold then
        [⟨"line_crossing_in", lcLineX.id, lcInit.inCounts lcLineX.id + 1,
          lcCfgX.inThreshold, 2, 7⟩]
      else []) := by
  have h := (C6_counted_crossing_increments_and_alerts_iff_ge_threshold
    lcCfgX 2 7 (1 / 2, 3 / 10) (1 / 2, 1 / 2) (lcInit, []) lcLineX
    ((0 : ℚ), (3 : ℚ) / 10) (1, 3 / 10) [] rfl
    (by simp [lcInit])).1 check_on_line_below
  exact h

theorem reidStep_cases (cfg : TrackerConfig) (s : TrackerState)
    (className : String) (emb : List ℚ) (b : Option ℤ × ℚ)
    (p : ℤ × TrackedObject) :
    (reidCandidateStep cfg s className emb b p = b ∧
      (ReidCandidate cfg s className p →
        ∀ te, alookup s.trackEmbeddings p.1 = some te →
          cosineSimilarity emb te < cfg.reidSimilarityThresh ∨
          cosineSimilarity emb te ≤ b.2)) ∨
    (ReidCandidate cfg s className p ∧ ∃ te,
      alookup s.trackEmbeddings p.1 = some te ∧
      cfg.reidSimilarityThresh ≤ cosineSimilarity emb te ∧
      b.2 < cosineSimilarity emb te ∧
      reidCandidateStep cfg s className emb b p =
        (some p.1, cosineSimilarity emb te)) := by
  unfold reidCandidateStep
  by_cases h1 : p.2.className ≠ className
  · left
    rw [if_pos h1]
    exact ⟨rfl, fun hc => absurd hc.1 h1⟩
  · rw [if_neg h1]
    cases hact : p.2.isActive s.frameIdx cfg.maxLostFrames with
    | true =>
      left
      rw [if_pos rfl]
      refine ⟨rfl, fun hc => ?_⟩
      exact Bool.noConfusion (hact.symm.trans hc.2)
    | false =>
      rw [if_neg Bool.false_ne_true]
      cases hemb : alookup s.trackEmbeddings p.1 with
      | none =>
        left
        refine ⟨rfl, fun _ te hte => ?_⟩
        exact Option.noConfusion hte
      | some te =>
        dsimp only
        by_cases hif : cosineSimilarity emb te ≥ cfg.reidSimilarityThresh ∧
            cosineSimilarity emb te > b.2
        · right
          refine ⟨⟨not_not.mp h1, hact⟩, te, rfl, hif.1, hif.2, ?_⟩
          rw [if_pos hif]
        · left
          refine ⟨by rw [if_neg hif], fun _ te' hte' => ?_⟩
          obtain rfl : te = te' := Option.some.inj hte'
          rcases not_and_or.mp hif with h | h
          · exact Or.inl (not_le.mp h)
          · exact Or.inr (not_lt.mp h)

theorem reidFold_snd_mono (cfg : TrackerConfig) (s : TrackerState)
    (className : String) (emb : List ℚ) :
    ∀ (l : List (ℤ × TrackedObject)) (b : Option ℤ × ℚ),
      b.2 ≤ (l.foldl (reidCandidateStep cfg s className emb) b).2 := by
  intro l
  induction l with
  | nil => exact fun b => le_rfl
  | cons x t ih =>
    intro b
    refine le_trans ?_ (ih (reidCandidateStep cfg s className emb b x))
    rcases reidStep_cases cfg s className emb b x with ⟨he, _⟩ | ⟨_, te, _, _, hlt, he⟩
    · rw [he]
    · rw [he]
      exact le_of_lt hlt

theorem reidFold_none_inv (cfg : TrackerConfig) (s : TrackerState)
    (className : String) (emb : List ℚ) (b : Option ℤ × ℚ)
    (p : ℤ × TrackedObject) (h : b.1 = none → b.2 = -1) :
    (reidCandidateStep cfg s className emb b p).1 = none →
      (reidCandidateStep cfg s className emb b p).2 = -1 := by
  rcases reidStep_cases cfg s className emb b p with ⟨he, _⟩ | ⟨_, te, _, _, _, he⟩
  · rw [he]; exact h
  · rw [he]; intro hcon; exact Option.noConfusion hcon

theorem reidFold_good (cfg : TrackerConfig) (s : TrackerState)
    (className : String) (emb : List ℚ) (L : List (ℤ × TrackedObject)) :
    ∀ (l : List (ℤ × TrackedObject)) (b : Option ℤ × ℚ),
      (∀ x ∈ l, x ∈ L) → ReidGood cfg s className emb L b →
      ReidGood cfg s className emb L
        (l.foldl (reidCandidateStep cfg s className emb) b) := by
  intro l
  induction l with
  | nil => exact fun b _ hg => hg
  | cons x t ih =>
    intro b hsub hg
    refine ih _ (fun y hy => hsub y (List.mem_cons_of_mem x hy)) ?_
    rcases reidStep_cases cfg s className emb b x with ⟨he, _⟩ |
      ⟨hc, te, hemb, hth, _, he⟩
    · rw [he]; exact hg
    · rw [he]
      intro tid htid
      refine ⟨hth, x, hsub x (List.mem_cons_self x t), ?_, hc, te, hemb, rfl⟩
      exact Option.some.inj htid

theorem reidFold_max (cfg : TrackerConfig) (s : TrackerState)
    (className : String) (emb : List ℚ) :
    ∀ (l : List (ℤ × TrackedObject)) (b : Option ℤ × ℚ),
      ∀ pr ∈ l, ReidCandidate cfg s className pr →
        ∀ te, alookup s.trackEmbeddings pr.1 = some te →
          cosineSimilarity emb te < cfg.reidSimilarityThresh ∨
          cosineSimilarity emb te ≤
            (l.foldl (reidCandidateStep cfg s className emb) b).2 := by
  intro l
  induction l with
  | nil => intro b pr hpr; exact absurd hpr (List.not_mem_nil pr)
  | cons x t ih =>
    intro b pr hpr hc te hemb
    rw [List.foldl_cons]
    rcases List.mem_cons.mp hpr with rfl | hmem
    · rcases reidStep_cases cfg s className emb b pr with ⟨he, hmax⟩ |
        ⟨_, te', hemb', _, _, he⟩
      · rcases hmax hc te hemb with hlt | hle
        · exact Or.inl hlt
        · refine Or.inr (le_trans hle ?_)
          rw [he]
          exact reidFold_snd_mono cfg s className emb t b
      · obtain rfl : te' = te := Option.some.inj (hemb'.symm.trans hemb)
        refine Or.inr ?_
        rw [he]
        exact reidFold_snd_mono cfg s className emb t _
    · exact ih _ pr hmem hc te hemb

theorem reidFold_some_of_exists (cfg : TrackerConfig) (s : TrackerState)
    (className : String) (emb : List ℚ)
    (hthr : -1 < cfg.reidSimilarityThresh) :
    ∀ (l : List (ℤ × TrackedObject)) (b : Option ℤ × ℚ),
      (b.1 = none → b.2 = -1) →
      ((∃ pr ∈ l, ReidCandidate cfg s className pr ∧
          ∃ te, alookup s.trackEmbeddings pr.1 = some te ∧
            cfg.reidSimilarityThresh ≤ cosineSimilarity emb te) ∨
        b.1.isSome = true) →
      (l.foldl (reidCandidateStep cfg s className emb) b).1.isSome = true := by
  intro l
  induction l with
  | nil =>
    intro b _ hex
    rcases hex with ⟨pr, hpr, _⟩ | hs
    · exact absurd hpr (List.not_mem_nil pr)
    · exact hs
  | cons x t ih =>
    intro b hinv hex
    refine ih _ (reidFold_none_inv cfg s className emb b x hinv) ?_
    rcases hex with ⟨pr, hpr, hc, te, hemb, hth⟩ | hs
    · rcases List.mem_cons.mp hpr with rfl | hmem
      · right
        rcases reidStep_cases cfg s className emb b pr with ⟨he, hmax⟩ |
          ⟨_, te', _, _, _, he⟩
        · rcases hmax hc te hemb with hlt | hle
          · exact absurd hth (not_le.mpr hlt)
          · cases hb : b.1 with
            | none =>
              rw [hinv hb] at hle
              exact absurd (lt_of_lt_of_le hthr hth) (not_lt.mpr hle)
            | some tid =>
              rw [he, hb]
              rfl
        · rw [he]
          rfl
      · exact Or.inl ⟨pr, hmem, hc, te, hemb, hth⟩
    · right
      rcases reidStep_cases cfg s className emb b x with ⟨he, _⟩ |
        ⟨_, te', _, _, _, he⟩
      · rw [he]; exact hs
      · rw [he]; rfl

theorem reidFold_below_self (cfg : TrackerConfig) (s : TrackerState)
    (className : String) (emb : List ℚ) :
    ∀ (l : List (ℤ × TrackedObject)) (b : Option ℤ × ℚ),
      (∀ pr ∈ l, ReidCandidate cfg s className pr →
        ∀ te, alookup s.trackEmbeddings pr.1 = some te →
          cosineSimilarity emb te < cfg.reidSimilarityThresh) →
      l.foldl (reidCandidateStep cfg s className emb) b = b := by
  intro l
  induction l with
  | nil => exact fun b _ => rfl
  | cons x t ih =>
    intro b hall
    rcases reidStep_cases cfg s className emb b x with ⟨he, _⟩ |
      ⟨hc, te, hemb, hth, _, _⟩
    · rw [List.foldl_cons, he]
      exact ih b (fun pr hpr => hall pr (List.mem_cons_of_mem x hpr))
    · exact absurd hth
        (not_le.mpr (hall x (List.mem_cons_self x t) hc te hemb))

/-- C4: when Re-ID is enabled and a not-yet-mapped associator id arrives
with an available appearance embedding, `_assign_stable_track_id` revives
the stable id of a best-matching *inactive* track of the same class whose
stored embedding reaches `reid_similarity_thresh` whenever one exists
(active tracks are never candidates: the revived track satisfies
`is_active = false`, and the chosen similarity is maximal among all
inactive same-class candidates); when no candidate reaches the threshold,
a fresh monotonically increasing stable id is allocated instead. -/
theorem C4_reid_revives_best_inactive_or_allocates_fresh :
    ∀ (cfg : TrackerConfig) (s : TrackerState) (byteTrackId : ℤ)
      (className : String) (cx cy : ℚ) (emb : List ℚ),
      alookup s.byteToStable byteTrackId = none →
      cfg.reidEnabled = true →
      -1 < cfg.reidSimilarityThresh →
      ((∃ pr ∈ s.tracks, ReidCandidate cfg s className pr ∧
          ∃ te, alookup s.trackEmbeddings pr.1 = some te ∧
            cfg.reidSimilarityThresh ≤ cosineSimilarity emb te) →
        ∃ pr ∈ s.tracks, ReidCandidate cfg s className pr ∧
          ∃ te, alookup s.trackEmbeddings pr.1 = some te ∧
            cfg.reidSimilarityThresh ≤ cosineSimilarity emb te ∧
            (assignStableTrackId cfg s byteTrackId className cx cy
              (some emb)).1 = pr.1 ∧
            (∀ pr' ∈ s.tracks, ReidCandidate cfg s className pr' →
              ∀ te', alookup s.trackEmbeddings pr'.1 = some te' →
                cosineSimilarity emb te' ≤ cosineSimilarity emb te) ∧
            (assignStableTrackId cfg s byteTrackId className cx cy
              (some emb)).2.nextTrackId = s.nextTrackId) ∧
      ((∀ pr ∈ s.tracks, ReidCandidate cfg s className pr →
          ∀ te, alookup s.trackEmbeddings pr.1 = some te →
            cosineSimilarity emb te < cfg.reidSimilarityThresh) →
        (assignStableTrackId cfg s byteTrackId className cx cy
          (some emb)).1 = s.nextTrackId ∧
        (assignStableTrackId cfg s byteTrackId className cx cy
          (some emb)).2.nextTrackId = s.nextTrackId + 1) := by
  intro cfg s byteTrackId className cx cy emb hmap hreid hthr
  constructor
  · intro hex
    have hsome := reidFold_some_of_exists cfg s className emb hthr s.tracks
      (none, -1) (fun _ => rfl) (Or.inl hex)
    obtain ⟨tid, htid⟩ := Option.isSome_iff_exists.mp hsome
    have hgood := reidFold_good cfg s className emb s.tracks s.tracks
      (none, -1) (fun y hy => hy) (fun t ht => Option.noConfusion ht) tid htid
    obtain ⟨hth, pr, hpr, hprid, hc, te, hemb, hsim⟩ := hgood
    refine ⟨pr, hpr, hc, te, hemb, le_of_le_of_eq hth hsim.symm, ?_, ?_, ?_⟩
    · simp only [assignStableTrackId, hmap, hreid, reidBestCandidate, htid]
      exact hprid.symm
    · intro pr' hpr' hc' te' hemb'
      rcases reidFold_max cfg s className emb s.tracks (none, -1) pr' hpr'
        hc' te' hemb' with hlt | hle
      · exact le_of_lt (lt_of_lt_of_le hlt (le_of_le_of_eq hth hsim.symm))
      · rw [hsim]
        exact hle
    · simp only [assignStableTrackId, hmap, hreid, reidBestCandidate, htid]
  · intro hall
    have hnone := reidFold_below_self cfg s className emb s.tracks
      (none, -1) hall
    constructor
    · simp only [assignStableTrackId, hmap, hreid, reidBestCandidate, hnone]
    · simp only [assignStableTrackId, hmap, hreid, reidBestCandidate, hnone]

theorem C4_reid_revives_best_inactive_or_allocates_fresh_witness :
    ∃ pr ∈ reidStateX.tracks, ReidCandidate reidCfgX reidStateX "person" pr ∧
      ∃ te, alookup reidStateX.trackEmbeddings pr.1 = some te ∧
        reidCfgX.reidSimilarityThresh ≤ cosineSimilarity [1] te ∧
        (assignStableTrackId reidCfgX reidStateX 9 "person" 10 10
          (some [1])).1 = pr.1 ∧
        (∀ pr' ∈ reidStateX.tracks, ReidCandidate reidCfgX reidStateX "person" pr' →
          ∀ te', alookup reidStateX.trackEmbeddings pr'.1 = some te' →
            cosineSimilarity [1] te' ≤ cosineSimilarity [1] te) ∧
        (assignStableTrackId reidCfgX reidStateX 9 "person" 10 10
          (some [1])).2.nextTrackId = reidStateX.nextTrackId := by
  refine (C4_reid_revives_best_inactive_or_allocates_fresh reidCfgX reidStateX
    9 "person" 10 10 [1] rfl rfl (by norm_num [reidCfgX])).1 ?_
  refine ⟨(3, reidTrackX), List.mem_cons_self _ _, ⟨rfl, rfl⟩, [1], rfl, ?_⟩
  show (82 : ℚ) / 100 ≤ cosineSimilarity [1] [1]
  norm_num [cosineSimilarity, dotList, min_def, max_def]

theorem mem_aupsert_self {α β : Type} [DecidableEq α] (l : List (α × β))
    (k : α) (v : β) : (k, v) ∈ aupsert l k v := by
  induction l with
  | nil => simp [aupsert]
  | cons hd tl ih =>
    obtain ⟨k', v'⟩ := hd
    by_cases hk : k' = k
    · simp [aupsert, hk]
    · simp only [aupsert, if_neg hk, List.mem_cons]
      exact Or.inr ih

theorem mem_aupsert_elim {α β : Type} [DecidableEq α] {l : List (α × β)}
    {k : α} {v : β} {pr : α × β} (h : pr ∈ aupsert l k v) :
    pr ∈ l ∨ pr = (k, v) := by
  induction l with
  | nil => simpa [aupsert] using h
  | cons hd tl ih =>
    obtain ⟨k', v'⟩ := hd
    by_cases hk : k' = k
    · rw [aupsert, if_pos hk] at h
      rcases List.mem_cons.mp h with rfl | hmem
      · exact Or.inr rfl
      · exact Or.inl (List.mem_cons_of_mem _ hmem)
    · rw [aupsert, if_neg hk] at h
      rcases List.mem_cons.mp h with rfl | hmem
      · exact Or.inl (List.mem_cons_self _ _)
      · rcases ih hmem with h1 | h1
        · exact Or.inl (List.mem_cons_of_mem _ h1)
        · exact Or.inr h1

theorem mem_aupsert_of_ne {α β : Type} [DecidableEq α] {l : List (α × β)}
    {pr : α × β} (k : α) (v : β) (h : pr ∈ l) (hne : pr.1 ≠ k) :
    pr ∈ aupsert l k v := by
  induction l with
  | nil => exact absurd h (List.not_mem_nil pr)
  | cons hd tl ih =>
    obtain ⟨k', v'⟩ := hd
    by_cases hk : k' = k
    · rw [aupsert, if_pos hk]
      rcases List.mem_cons.mp h with rfl | hmem
      · exact absurd hk hne
      · exact List.mem_cons_of_mem _ hmem
    · rw [aupsert, if_neg hk]
      rcases List.mem_cons.mp h with rfl | hmem
      · exact List.mem_cons_self _ _
      · exact List.mem_cons_of_mem _ (ih hmem)

theorem mem_sadd_elim {α : Type} [DecidableEq α] {l : List α} {a b : α}
    (h : b ∈ sadd l a) : b ∈ l ∨ b = a := by
  unfold sadd at h
  split_ifs at h
  · exact Or.inl h
  · rcases List.mem_append.mp h with h1 | h1
    · exact Or.inl h1
    · exact Or.inr (List.mem_singleton.mp h1)

theorem updateTrackEmbedding_shape (cfg : TrackerConfig) (s : TrackerState)
    (stableTrackId : ℤ) (embedding : Option (List ℚ)) :
    (updateTrackEmbedding cfg s stableTrackId embedding).tracks = s.tracks ∧
    (updateTrackEmbedding cfg s stableTrackId embedding).frameIdx = s.frameIdx ∧
    (updateTrackEmbedding cfg s stableTrackId embedding).allocLog = s.allocLog ∧
    (updateTrackEmbedding cfg s stableTrackId embedding).nextTrackId =
      s.nextTrackId := by
  unfold updateTrackEmbedding
  split_ifs
  · cases embedding with
    | none => exact ⟨rfl, rfl, rfl, rfl⟩
    | some emb => exact ⟨rfl, rfl, rfl, rfl⟩
  · exact ⟨rfl, rfl, rfl, rfl⟩

theorem byteTouchTrack_shape (s : TrackerState) (stableTrackId : ℤ)
    (className : String) (centerX centerY score : ℚ) :
    (∃ tr : TrackedObject,
      (byteTouchTrack s stableTrackId className centerX centerY score).tracks =
        aupsert s.tracks stableTrackId tr ∧ tr.lastFrameIdx = s.frameIdx) ∧
    (byteTouchTrack s stableTrackId className centerX centerY score).frameIdx =
      s.frameIdx ∧
    (byteTouchTrack s stableTrackId className centerX centerY score).allocLog =
      s.allocLog ∧
    (byteTouchTrack s stableTrackId className centerX centerY
      score).nextTrackId = s.nextTrackId := by
  unfold byteTouchTrack
  cases alookup s.tracks stableTrackId with
  | none => exact ⟨⟨_, rfl, rfl⟩, rfl, rfl, rfl⟩
  | some existing => exact ⟨⟨_, rfl, rfl⟩, rfl, rfl, rfl⟩

theorem assignStableTrackId_shape (cfg : TrackerConfig) (s : TrackerState)
    (byteTrackId : ℤ) (className : String) (centerX centerY : ℚ)
    (embedding : Option (List ℚ)) :
    (assignStableTrackId cfg s byteTrackId className centerX centerY
      embedding).2.frameIdx = s.frameIdx ∧
    ((assignStableTrackId cfg s byteTrackId className centerX centerY
        embedding).2.tracks = s.tracks ∨
      ∃ tr : TrackedObject,
        (assignStableTrackId cfg s byteTrackId className centerX centerY
          embedding).2.tracks = aupsert s.tracks
            (assignStableTrackId cfg s byteTrackId className centerX centerY
              embedding).1 tr ∧ tr.lastFrameIdx = s.frameIdx) ∧
    (((assignStableTrackId cfg s byteTrackId className centerX centerY
          embedding).2.allocLog = s.allocLog ∧
        (assignStableTrackId cfg s byteTrackId className centerX centerY
          embedding).2.nextTrackId = s.nextTrackId) ∨
      ((assignStableTrackId cfg s byteTrackId className centerX centerY
          embedding).2.allocLog = s.allocLog ++ [s.nextTrackId] ∧
        (assignStableTrackId cfg s byteTrackId className centerX centerY
          embedding).2.nextTrackId = s.nextTrackId + 1)) := by
  unfold assignStableTrackId
  cases hm : alookup s.byteToStable byteTrackId with
  | some mapped => exact ⟨rfl, Or.inl rfl, Or.inl ⟨rfl, rfl⟩⟩
  | none =>
    cases embedding with
    | none => exact ⟨rfl, Or.inr ⟨_, rfl, rfl⟩, Or.inr ⟨rfl, rfl⟩⟩
    | some emb =>
      cases hre : cfg.reidEnabled with
      | false => exact ⟨rfl, Or.inr ⟨_, rfl, rfl⟩, Or.inr ⟨rfl, rfl⟩⟩
      | true =>
        dsimp only
        cases hbb : (reidBestCandidate cfg s className emb).1 with
        | some tid => exact ⟨rfl, Or.inl rfl, Or.inl ⟨rfl, rfl⟩⟩
        | none => exact ⟨rfl, Or.inr ⟨_, rfl, rfl⟩, Or.inr ⟨rfl, rfl⟩⟩

theorem allocInv_keep {s s' : TrackerState} (h1 : s'.allocLog = s.allocLog)
    (h2 : s.nextTrackId ≤ s'.nextTrackId) (h : AllocInv s) : AllocInv s' := by
  refine ⟨h1 ▸ h.1, fun i hi => ?_⟩
  rw [h1] at hi
  exact lt_of_lt_of_le (h.2 i hi) h2

theorem allocInv_alloc {s s' : TrackerState}
    (h1 : s'.allocLog = s.allocLog ++ [s.nextTrackId])
    (h2 : s'.nextTrackId = s.nextTrackId + 1) (h : AllocInv s) : AllocInv s' := by
  constructor
  · rw [h1, List.pairwise_append]
    exact ⟨h.1, List.pairwise_singleton _ _,
      fun a ha b hb => (List.mem_singleton.mp hb) ▸ h.2 a ha⟩
  · intro i hi
    rw [h1, List.mem_append] at hi
    rw [h2]
    rcases hi with hi | hi
    · exact lt_trans (h.2 i hi) (lt_add_one _)
    · rw [List.mem_singleton.mp hi]
      exact lt_add_one _

theorem byteRowTail_allocInv (cfg : TrackerConfig) (s0 : TrackerState)
    (byteTrackId : ℤ) (className : String) (centerX centerY score : ℚ)
    (embedding : Option (List ℚ)) (h : AllocInv s0) :
    AllocInv (byteTouchTrack
      (updateTrackEmbedding cfg
        (assignStableTrackId cfg s0 byteTrackId className centerX centerY
          embedding).2
        (assignStableTrackId cfg s0 byteTrackId className centerX centerY
          embedding).1 embedding)
      (assignStableTrackId cfg s0 byteTrackId className centerX centerY
        embedding).1 className centerX centerY score) := by
  obtain ⟨-, -, hAlloc⟩ :=
    assignStableTrackId_shape cfg s0 byteTrackId className centerX centerY
      embedding
  obtain ⟨-, -, hu1, hu2⟩ := updateTrackEmbedding_shape cfg
    (assignStableTrackId cfg s0 byteTrackId className centerX centerY
      embedding).2
    (assignStableTrackId cfg s0 byteTrackId className centerX centerY
      embedding).1 embedding
  obtain ⟨-, -, ht1, ht2⟩ := byteTouchTrack_shape
    (updateTrackEmbedding cfg
      (assignStableTrackId cfg s0 byteTrackId className centerX centerY
        embedding).2
      (assignStableTrackId cfg s0 byteTrackId className centerX centerY
        embedding).1 embedding)
    (assignStableTrackId cfg s0 byteTrackId className centerX centerY
      embedding).1 className centerX centerY score
  rcases hAlloc with ⟨ha, hn⟩ | ⟨ha, hn⟩
  · refine allocInv_keep ?_ ?_ h
    · rw [ht1, hu1, ha]
    · rw [ht2, hu2, hn]
  · refine allocInv_alloc ?_ ?_ h
    · rw [ht1, hu1, ha]
    · rw [ht2, hu2, hn]

theorem byteRowStep_allocInv (cfg : TrackerConfig) (dets : List TDetection)
    (frameGiven : Bool) (embOf : ℕ → Option (List ℚ))
    (clsMap : List (ℤ × String)) (acc : ByteLoopAcc) (row : List ℚ)
    (h : AllocInv acc.state) :
    AllocInv (byteRowStep cfg dets frameGiven embOf clsMap acc row).state := by
  unfold byteRowStep
  cases hp : parseByteRow row with
  | none => exact h
  | some tup =>
    obtain ⟨cX, cY, tid, score, cls, didx⟩ := tup
    exact byteRowTail_allocInv cfg acc.state _ _ cX cY score _ h

theorem byteRowLoop_allocInv (cfg : TrackerConfig) (s : TrackerState)
    (inp : ByteFrameInput) (h : AllocInv s) :
    AllocInv (byteRowLoop cfg s inp).state := by
  unfold byteRowLoop
  refine foldlPreserve (P := fun acc : ByteLoopAcc => AllocInv acc.state)
    ?_ inp.rows ⟨s, [], []⟩ h
  intro a b ha
  exact byteRowStep_allocInv cfg inp.detections inp.frameGiven inp.embOf
    (classIdToName inp.detections) a b ha

theorem trackerUpdateByte_allocInv (cfg : TrackerConfig) (s : TrackerState)
    (inp : ByteFrameInput) (h : AllocInv s) :
    AllocInv (trackerUpdateByte cfg s inp).1 := by
  have h1 := byteRowLoop_allocInv cfg s inp h
  unfold trackerUpdateByte updateWithBytetrack
  dsimp only
  split_ifs with hempty
  all_goals refine allocInv_keep ?_ ?_ h1
  all_goals first | rfl | exact le_rfl | exact le_max_left _ _

theorem centroidDetStep_alloc (cfg : TrackerConfig)
    (activeSnapshot : List (ℤ × TrackedObject))
    (acc : TrackerState × List ℤ × List ℕ)
    (ide : ℕ × (ℚ × ℚ × TDetection × Option (List ℚ))) :
    (centroidDetStep cfg activeSnapshot acc ide).1.allocLog =
      acc.1.allocLog ∧
    (centroidDetStep cfg activeSnapshot acc ide).1.nextTrackId =
      acc.1.nextTrackId := by
  unfold centroidDetStep
  dsimp only
  cases hb : (activeSnapshot.foldl
      (centroidMatchStep cfg acc.1 ide.2.1 ide.2.2.1 ide.2.2.2.2 acc.2.1)
      (none, (-1, 0, 0))).1 with
  | none => exact ⟨rfl, rfl⟩
  | some bestTrackId =>
    dsimp only
    cases ht : alookup acc.1.tracks bestTrackId with
    | none => exact ⟨rfl, rfl⟩
    | some tr =>
      dsimp only
      exact ⟨(updateTrackEmbedding_shape cfg _ bestTrackId ide.2.2.2.2).2.2.1,
        (updateTrackEmbedding_shape cfg _ bestTrackId ide.2.2.2.2).2.2.2⟩

theorem centroidSpawnStep_allocInv (cfg : TrackerConfig) (className : String)
    (usedDetections : List ℕ) (s : TrackerState)
    (ide : ℕ × (ℚ × ℚ × TDetection × Option (List ℚ))) (h : AllocInv s) :
    AllocInv (centroidSpawnStep cfg className usedDetections s ide) := by
  unfold centroidSpawnStep
  split_ifs with hmem
  · exact h
  · obtain ⟨-, -, hu1, hu2⟩ := updateTrackEmbedding_shape cfg
      ({ s with
        tracks := aupsert s.tracks s.nextTrackId
          ⟨s.nextTrackId, className, [(ide.2.1, ide.2.2.1)], [s.frameIdx],
            s.frameIdx, [ide.2.2.2.1.confidence]⟩,
        allocLog := s.allocLog ++ [s.nextTrackId] }) s.nextTrackId ide.2.2.2.2
    refine allocInv_alloc ?_ ?_ h
    · exact hu1
    · dsimp only
      rw [hu2]

theorem centroidClassStep_allocInv (cfg : TrackerConfig) (s : TrackerState)
    (g : String × List (ℚ × ℚ × TDetection × Option (List ℚ)))
    (h : AllocInv s) : AllocInv (centroidClassStep cfg s g) := by
  unfold centroidClassStep
  dsimp only
  have hdet : ∀ (l : List (ℕ × (ℚ × ℚ × TDetection × Option (List ℚ))))
      (acc : TrackerState × List ℤ × List ℕ), AllocInv acc.1 →
      AllocInv (l.foldl (centroidDetStep cfg
        (s.tracks.filter (fun p => decide (p.2.className = g.1) &&
          p.2.isActive s.frameIdx cfg.maxLostFrames))) acc).1 := by
    intro l
    refine foldlPreserve (P := fun acc : TrackerState × List ℤ × List ℕ =>
      AllocInv acc.1) ?_ l
    intro a b ha
    obtain ⟨h1, h2⟩ := centroidDetStep_alloc cfg _ a b
    exact allocInv_keep h1 (le_of_eq h2.symm) ha
  refine foldlPreserve (P := AllocInv) ?_ g.2.enum _ (hdet g.2.enum (s, [], []) h)
  intro a b ha
  exact centroidSpawnStep_allocInv cfg g.1 _ a b ha

theorem trackerUpdateCentroid_allocInv (cfg : TrackerConfig)
    (s : TrackerState) (inp : CentroidFrameInput) (h : AllocInv s) :
    AllocInv (trackerUpdateCentroid cfg s inp).1 := by
  unfold trackerUpdateCentroid updateWithCentroid
  dsimp only
  refine allocInv_keep rfl le_rfl ?_
  refine foldlPreserve (P := AllocInv) ?_ _ s h
  intro a b ha
  exact centroidClassStep_allocInv cfg a b ha

/-- C7: throughout a process lifetime — on the ByteTrack path and on the
centroid fallback alike, whatever the Re-ID configuration — the ghost
allocation log (one entry per id handed out from `next_track_id`) is
strictly increasing, so no track id is ever allocated twice. -/
theorem C7_track_ids_strictly_monotone_never_reused :
    ∀ (cfg : TrackerConfig),
      (∀ inputs : List ByteFrameInput,
        (runTrackerByte cfg inputs).allocLog.Pairwise (· < ·) ∧
        (runTrackerByte cfg inputs).allocLog.Nodup) ∧
      (∀ inputs : List CentroidFrameInput,
        (runTrackerCentroid cfg inputs).allocLog.Pairwise (· < ·) ∧
        (runTrackerCentroid cfg inputs).allocLog.Nodup) := by
  intro cfg
  have hinit : AllocInv trackerInit := by
    constructor
    · exact List.Pairwise.nil
    · intro i hi
      exact absurd hi (List.not_mem_nil i)
  constructor
  · intro inputs
    have h : AllocInv (runTrackerByte cfg inputs) := by
      unfold runTrackerByte
      refine foldlPreserve (P := AllocInv) ?_ inputs trackerInit hinit
      intro a b ha
      exact trackerUpdateByte_allocInv cfg a b ha
    exact ⟨h.1, h.1.imp ne_of_lt⟩
  · intro inputs
    have h : AllocInv (runTrackerCentroid cfg inputs) := by
      unfold runTrackerCentroid
      refine foldlPreserve (P := AllocInv) ?_ inputs trackerInit hinit
      intro a b ha
      exact trackerUpdateCentroid_allocInv cfg a b ha
    exact ⟨h.1, h.1.imp ne_of_lt⟩

theorem keyInvTail {F : ℤ} {ids : List ℤ} {stid : ℤ} {s0 s2 : TrackerState}
    (hf2 : s2.frameIdx = F)
    (htr2 : s2.tracks = s0.tracks ∨ ∃ tr, s2.tracks = aupsert s0.tracks stid tr)
    (h2 : ∀ pr ∈ s0.tracks, pr.2.lastFrameIdx = F → pr.1 ∈ ids)
    (h3 : ∀ t ∈ ids, ∃ tr, (t, tr) ∈ s0.tracks ∧ tr.lastFrameIdx = F)
    (className : String) (cX cY score : ℚ) :
    (byteTouchTrack s2 stid className cX cY score).frameIdx = F ∧
    (∀ pr ∈ (byteTouchTrack s2 stid className cX cY score).tracks,
      pr.2.lastFrameIdx = F → pr.1 ∈ sadd ids stid) ∧
    (∀ t ∈ sadd ids stid,
      ∃ tr, (t, tr) ∈ (byteTouchTrack s2 stid className cX cY score).tracks ∧
        tr.lastFrameIdx = F) := by
  obtain ⟨⟨tr3, ht_tr, ht_last⟩, ht_f, -, -⟩ :=
    byteTouchTrack_shape s2 stid className cX cY score
  refine ⟨ht_f.trans hf2, ?_, ?_⟩
  · intro pr hpr hlast
    rw [ht_tr] at hpr
    rcases mem_aupsert_elim hpr with hpr | hpr
    · rcases htr2 with he | ⟨tr', he⟩
      · rw [he] at hpr
        exact mem_sadd_of_mem (h2 pr hpr hlast)
      · rw [he] at hpr
        rcases mem_aupsert_elim hpr with hpr | hpr
        · exact mem_sadd_of_mem (h2 pr hpr hlast)
        · rw [hpr]
          exact mem_sadd_self ids stid
    · rw [hpr]
      exact mem_sadd_self ids stid
  · intro t ht
    by_cases hcase : t = stid
    · subst hcase
      exact ⟨tr3, by rw [ht_tr]; exact mem_aupsert_self _ _ _,
        ht_last.trans hf2⟩
    · rcases mem_sadd_elim ht with ht | ht
      · obtain ⟨tr, htr, hlast⟩ := h3 t ht
        refine ⟨tr, ?_, hlast⟩
        rw [ht_tr]
        refine mem_aupsert_of_ne stid tr3 ?_ hcase
        rcases htr2 with he | ⟨tr', he⟩
        · rw [he]
          exact htr
        · rw [he]
          exact mem_aupsert_of_ne stid tr' htr hcase
      · exact absurd ht hcase

theorem byteRowTail_keyInv (cfg : TrackerConfig) (s0 : TrackerState)
    (ids : List ℤ) (byteTrackId : ℤ) (className : String)
    (centerX centerY score : ℚ) (embedding : Option (List ℚ))
    (h2 : ∀ pr ∈ s0.tracks, pr.2.lastFrameIdx = s0.frameIdx → pr.1 ∈ ids)
    (h3 : ∀ t ∈ ids, ∃ tr, (t, tr) ∈ s0.tracks ∧
      tr.lastFrameIdx = s0.frameIdx) :
    (byteTouchTrack
        (updateTrackEmbedding cfg
          (assignStableTrackId cfg s0 byteTrackId className centerX centerY
            embedding).2
          (assignStableTrackId cfg s0 byteTrackId className centerX centerY
            embedding).1 embedding)
        (assignStableTrackId cfg s0 byteTrackId className centerX centerY
          embedding).1 className centerX centerY score).frameIdx =
      s0.frameIdx ∧
    (∀ pr ∈ (byteTouchTrack
        (updateTrackEmbedding cfg
          (assignStableTrackId cfg s0 byteTrackId className centerX centerY
            embedding).2
          (assignStableTrackId cfg s0 byteTrackId className centerX centerY
            embedding).1 embedding)
        (assignStableTrackId cfg s0 byteTrackId className centerX centerY
          embedding).1 className centerX centerY score).tracks,
      pr.2.lastFrameIdx = s0.frameIdx →
        pr.1 ∈ sadd ids (assignStableTrackId cfg s0 byteTrackId className
          centerX centerY embedding).1) ∧
    (∀ t ∈ sadd ids (assignStableTrackId cfg s0 byteTrackId className
        centerX centerY embedding).1,
      ∃ tr, (t, tr) ∈ (byteTouchTrack
        (updateTrackEmbedding cfg
          (assignStableTrackId cfg s0 byteTrackId className centerX centerY
            embedding).2
          (assignStableTrackId cfg s0 byteTrackId className centerX centerY
            embedding).1 embedding)
        (assignStableTrackId cfg s0 byteTrackId className centerX centerY
          embedding).1 className centerX centerY score).tracks ∧
        tr.lastFrameIdx = s0.frameIdx) := by
  obtain ⟨haf, hatr, -⟩ :=
    assignStableTrackId_shape cfg s0 byteTrackId className centerX centerY
      embedding
  obtain ⟨hut, huf, -, -⟩ :=
    updateTrackEmbedding_shape cfg
      (assignStableTrackId cfg s0 byteTrackId className centerX centerY
        embedding).2
      (assignStableTrackId cfg s0 byteTrackId className centerX centerY
        embedding).1 embedding
  refine keyInvTail (huf.trans haf) ?_ h2 h3 className centerX centerY score
  rw [hut]
  rcases hatr with he | ⟨tr, he, -⟩
  · exact Or.inl he
  · exact Or.inr ⟨tr, he⟩

theorem byteRowStep_keyInv (cfg : TrackerConfig) (dets : List TDetection)
    (frameGiven : Bool) (embOf : ℕ → Option (List ℚ))
    (clsMap : List (ℤ × String)) (F : ℤ) (acc : ByteLoopAcc) (row : List ℚ)
    (h : ByteKeyInv F acc) :
    ByteKeyInv F (byteRowStep cfg dets frameGiven embOf clsMap acc row) := by
  obtain ⟨h1, h2, h3⟩ := h
  subst h1
  unfold byteRowStep
  cases hp : parseByteRow row with
  | none => exact ⟨rfl, h2, h3⟩
  | some tup =>
    obtain ⟨cX, cY, tid, score, cls, didx⟩ := tup
    exact byteRowTail_keyInv cfg acc.state acc.activeStableIds _ _ cX cY
      score _ h2 h3

theorem byteRowLoop_keyInv (cfg : TrackerConfig) (s : TrackerState)
    (inp : ByteFrameInput)
    (hfresh : ∀ pr ∈ s.tracks, pr.2.lastFrameIdx < s.frameIdx) :
    ByteKeyInv s.frameIdx (byteRowLoop cfg s inp) := by
  unfold byteRowLoop
  refine foldlPreserve (P := ByteKeyInv s.frameIdx) ?_ inp.rows ⟨s, [], []⟩
    ⟨rfl, ?_, ?_⟩
  · intro a b ha
    exact byteRowStep_keyInv cfg inp.detections inp.frameGiven inp.embOf
      (classIdToName inp.detections) s.frameIdx a b ha
  · intro pr hpr hlast
    exact absurd hlast (ne_of_lt (hfresh pr hpr))
  · intro t ht
    exact absurd ht (List.not_mem_nil t)

theorem byteResultKeys {F : ℤ} {ids : List ℤ}
    {tracks : List (ℤ × TrackedObject)}
    (h2 : ∀ pr ∈ tracks, pr.2.lastFrameIdx = F → pr.1 ∈ ids)
    (h3 : ∀ t ∈ ids, ∃ tr, (t, tr) ∈ tracks ∧ tr.lastFrameIdx = F)
    (keep : ℤ × TrackedObject → Bool)
    (hkeep : ∀ t ∈ ids, ∀ tr : TrackedObject, keep (t, tr) = true) (tid : ℤ) :
    tid ∈ (((tracks.filter keep).filter
        (fun p => decide (p.2.lastFrameIdx = F))).map
      (fun p => (p.1,
        (p.2.currentCenter.1, p.2.currentCenter.2, p.2.className)))).map
      Prod.fst ↔ tid ∈ ids := by
  rw [List.map_map]
  constructor
  · intro h
    obtain ⟨p, hp, hpe⟩ := List.mem_map.mp h
    obtain ⟨hp1, hcond⟩ := List.mem_filter.mp hp
    obtain ⟨hp2, -⟩ := List.mem_filter.mp hp1
    have hpt : p.1 = tid := hpe
    rw [← hpt]
    exact h2 p hp2 (of_decide_eq_true hcond)
  · intro h
    obtain ⟨tr, htr, hlast⟩ := h3 tid h
    refine List.mem_map.mpr ⟨(tid, tr), ?_, rfl⟩
    refine List.mem_filter.mpr ⟨List.mem_filter.mpr ⟨htr, hkeep tid h tr⟩, ?_⟩
    exact decide_eq_true hlast

/-- C2: for every frame, the key set of the mapping returned by the
ByteTrack path is exactly the set of stable ids associated with a
detection this frame (under the run invariant that every pre-existing
track was last updated on an earlier frame); the centroid fallback
instead returns a mapping listing EVERY track that survives the staleness
cleanup — including active tracks not matched this frame — i.e. its key
set is the full post-update track dictionary, not the associated set. -/
theorem C2_result_keys_by_path (cfg : TrackerConfig) (s : TrackerState)
    (inp : ByteFrameInput) (cinp : CentroidFrameInput)
    (hfresh : ∀ pr ∈ s.tracks, pr.2.lastFrameIdx < s.frameIdx) :
    (∀ tid : ℤ, tid ∈ (trackerUpdateByte cfg s inp).2.map Prod.fst ↔
      tid ∈ bytetrackAssociatedIds cfg s inp) ∧
    (trackerUpdateCentroid cfg s cinp).2.map Prod.fst =
      (trackerUpdateCentroid cfg s cinp).1.tracks.map Prod.fst := by
  constructor
  · intro tid
    obtain ⟨h1, h2, h3⟩ := byteRowLoop_keyInv cfg s inp hfresh
    rw [← h1] at h2 h3
    unfold trackerUpdateByte updateWithBytetrack bytetrackAssociatedIds
    dsimp only
    split_ifs with hempty
    · exact byteResultKeys h2 h3 _ (fun t ht tr => by simp [ht]) tid
    · exact byteResultKeys h2 h3 _ (fun t ht tr => by simp [ht]) tid
  · unfold trackerUpdateCentroid updateWithCentroid
    dsimp only
    rw [List.map_map]
    rfl

/-- Witness: the fresh-tracks hypothesis and the conclusion of
`C2_result_keys_by_path` hold at the initial tracker state with an empty
ByteTrack frame and the one-detection centroid frame. -/
theorem C2_result_keys_by_path_witness :
    (∀ pr ∈ trackerInit.tracks, pr.2.lastFrameIdx < trackerInit.frameIdx) ∧
    ((∀ tid : ℤ, tid ∈ (trackerUpdateByte ctCfgX trackerInit byteInpX).2.map
        Prod.fst ↔ tid ∈ bytetrackAssociatedIds ctCfgX trackerInit byteInpX) ∧
      (trackerUpdateCentroid ctCfgX trackerInit ctFrame1).2.map Prod.fst =
        (trackerUpdateCentroid ctCfgX trackerInit ctFrame1).1.tracks.map
          Prod.fst) := by
  have hfresh : ∀ pr ∈ trackerInit.tracks,
      pr.2.lastFrameIdx < trackerInit.frameIdx := by
    intro pr hpr
    simp [trackerInit] at hpr
  exact ⟨hfresh,
    C2_result_keys_by_path ctCfgX trackerInit byteInpX ctFrame1 hfresh⟩

/-- C2 counterexample: the centroid fallback reports tracks that were not
associated with any detection on the frame — after a first frame that
spawns track 1, a second update with an EMPTY detection list still
returns a mapping whose key set is `[1]`. -/
theorem C2_counterexample_centroid_reports_unmatched_track :
    ctFrame2.detections = [] ∧ ctSecondResult.map Prod.fst = [1] :=
  ⟨rfl, by decide⟩

theorem sadd_nodup {α : Type} [DecidableEq α] {l : List α} (a : α)
    (h : l.Nodup) : (sadd l a).Nodup := by
  unfold sadd
  split_ifs with hm
  · exact h
  · simp [List.nodup_append, h, hm]

theorem not_mem_sdiscard_of_not_mem {α : Type} [DecidableEq α] {l : List α}
    {a b : α} (h : b ∉ l) : b ∉ sdiscard l a := by
  intro hb
  exact h (List.mem_filter.mp hb).1

theorem foldlPreserveMem {α β : Type} {P : α → Prop} {f : α → β → α} :
    ∀ (l : List β), (∀ a b, b ∈ l → P a → P (f a b)) →
      ∀ a, P a → P (l.foldl f a) := by
  intro l
  induction l with
  | nil => exact fun _ a ha => ha
  | cons h t ih =>
    intro hf a ha
    exact ih (fun a2 b hb ha2 => hf a2 b (List.mem_cons_of_mem h hb) ha2)
      _ (hf a h (List.mem_cons_self h t) ha)

theorem dtRegionStep_inv (cfg : DTConfig) (frameIdx : ℤ) (det : Detection)
    (c : ℚ × ℚ) (s0 : DTState)
    (sca : DTState × (ℤ → List ℤ) × List DTAlert) (region : RegionZone)
    (h1 : sca.1.dwellTimes = s0.dwellTimes)
    (h2 : ∀ r t, t ∈ s0.currentDwelling r → t ∈ sca.1.currentDwelling r)
    (h3 : ∀ r t, t ∈ sca.1.currentDwelling r →
      t ∈ s0.currentDwelling r ∨ t ∈ sca.2.1 r)
    (h4 : ∀ r t, t ∉ sca.2.1 r →
      sca.1.trackEntryFrame t r = s0.trackEntryFrame t r)
    (h5 : ∀ r, (s0.currentDwelling r).Nodup → (sca.1.currentDwelling r).Nodup)
    (h6 : ∀ r t, t ∈ sca.1.alertedTracks r →
      sca.1.trackEntryFrame t r ≠ none) :
    (dtRegionStep cfg frameIdx det c sca region).1.dwellTimes =
      s0.dwellTimes ∧
    (∀ r t, t ∈ s0.currentDwelling r →
      t ∈ (dtRegionStep cfg frameIdx det c sca region).1.currentDwelling r) ∧
    (∀ r t,
      t ∈ (dtRegionStep cfg frameIdx det c sca region).1.currentDwelling r →
      t ∈ s0.currentDwelling r ∨
        t ∈ (dtRegionStep cfg frameIdx det c sca region).2.1 r) ∧
    (∀ r t, t ∉ (dtRegionStep cfg frameIdx det c sca region).2.1 r →
      (dtRegionStep cfg frameIdx det c sca region).1.trackEntryFrame t r =
        s0.trackEntryFrame t r) ∧
    (∀ r, (s0.currentDwelling r).Nodup →
      ((dtRegionStep cfg frameIdx det c sca
        region).1.currentDwelling r).Nodup) ∧
    (∀ r t,
      t ∈ (dtRegionStep cfg frameIdx det c sca region).1.alertedTracks r →
      (dtRegionStep cfg frameIdx det c sca region).1.trackEntryFrame t r ≠
        none) := by
  have hmono : ∀ r u, u ∈ sca.2.1 r →
      u ∈ (if r = region.id then sadd (sca.2.1 r) det.trackId
        else sca.2.1 r) := by
    intro r u h
    split_ifs
    · exact mem_sadd_of_mem h
    · exact h
  unfold dtRegionStep
  dsimp only
  by_cases hcoords : region.coords.length < 3
  · rw [if_pos hcoords]
    exact ⟨h1, h2, h3, h4, h5, h6⟩
  rw [if_neg hcoords]
  by_cases hin : pointInPolygon c region.coords = true
  swap
  · rw [if_neg hin]
    exact ⟨h1, h2, h3, h4, h5, h6⟩
  rw [if_pos hin]
  by_cases hsome : (sca.1.trackEntryFrame det.trackId region.id).isSome = true
  all_goals first
    | rw [if_pos hsome]
    | rw [if_neg hsome]
  all_goals split_ifs with halert
  · refine ⟨h1, h2, ?_, ?_, h5, ?_⟩
    · intro r t ht
      exact (h3 r t ht).imp id (hmono r t)
    · intro r t ht
      exact h4 r t (fun hx => ht (hmono r t hx))
    · intro r t ht
      dsimp only at ht
      by_cases hr : r = region.id
      · subst hr
        rw [if_pos rfl] at ht
        rcases mem_sadd_elim ht with ht | ht
        · exact h6 _ t ht
        · subst ht
          intro hn
          rw [hn] at hsome
          simp at hsome
      · rw [if_neg hr] at ht
        exact h6 r t ht
  · refine ⟨h1, h2, ?_, ?_, h5, h6⟩
    · intro r t ht
      exact (h3 r t ht).imp id (hmono r t)
    · intro r t ht
      exact h4 r t (fun hx => ht (hmono r t hx))
  · refine ⟨h1, ?_, ?_, ?_, ?_, ?_⟩
    · intro r t ht
      dsimp only
      by_cases hr : r = region.id
      · subst hr
        rw [if_pos rfl]
        exact mem_sadd_of_mem (h2 _ t ht)
      · rw [if_neg hr]
        exact h2 r t ht
    · intro r t ht
      dsimp only at ht
      by_cases hr : r = region.id
      · subst hr
        rw [if_pos rfl] at ht
        dsimp only
        rw [if_pos rfl]
        rcases mem_sadd_elim ht with ht | ht
        · exact (h3 _ t ht).imp id (fun hx => mem_sadd_of_mem hx)
        · subst ht
          exact Or.inr (mem_sadd_self _ _)
      · rw [if_neg hr] at ht
        dsimp only
        rw [if_neg hr]
        exact h3 r t ht
    · intro r t ht
      dsimp only at ht ⊢
      have ht2 : t ∉ sca.2.1 r := fun hx => ht (hmono r t hx)
      have hne : ¬(t = det.trackId ∧ r = region.id) := by
        rintro ⟨rfl, rfl⟩
        refine ht ?_
        rw [if_pos rfl]
        exact mem_sadd_self _ _
      rw [if_neg hne]
      exact h4 r t ht2
    · intro r hr0
      dsimp only
      by_cases hr : r = region.id
      · subst hr
        rw [if_pos rfl]
        exact sadd_nodup _ (h5 _ hr0)
      · rw [if_neg hr]
        exact h5 r hr0
    · intro r t ht
      dsimp only at ht ⊢
      by_cases hp : t = det.trackId ∧ r = region.id
      · rw [if_pos hp]
        simp
      · rw [if_neg hp]
        by_cases hr : r = region.id
        · subst hr
          rw [if_pos rfl] at ht
          rcases mem_sadd_elim ht with ht | ht
          · exact h6 _ t ht
          · exact absurd ⟨ht, rfl⟩ hp
        · rw [if_neg hr] at ht
          exact h6 r t ht
  · refine ⟨h1, ?_, ?_, ?_, ?_, ?_⟩
    · intro r t ht
      dsimp only
      by_cases hr : r = region.id
      · subst hr
        rw [if_pos rfl]
        exact mem_sadd_of_mem (h2 _ t ht)
      · rw [if_neg hr]
        exact h2 r t ht
    · intro r t ht
      dsimp only at ht
      by_cases hr : r = region.id
      · subst hr
        rw [if_pos rfl] at ht
        dsimp only
        rw [if_pos rfl]
        rcases mem_sadd_elim ht with ht | ht
        · exact (h3 _ t ht).imp id (fun hx => mem_sadd_of_mem hx)
        · subst ht
          exact Or.inr (mem_sadd_self _ _)
      · rw [if_neg hr] at ht
        dsimp only
        rw [if_neg hr]
        exact h3 r t ht
    · intro r t ht
      dsimp only at ht ⊢
      have ht2 : t ∉ sca.2.1 r := fun hx => ht (hmono r t hx)
      have hne : ¬(t = det.trackId ∧ r = region.id) := by
        rintro ⟨rfl, rfl⟩
        refine ht ?_
        rw [if_pos rfl]
        exact mem_sadd_self _ _
      rw [if_neg hne]
      exact h4 r t ht2
    · intro r hr0
      dsimp only
      by_cases hr : r = region.id
      · subst hr
        rw [if_pos rfl]
        exact sadd_nodup _ (h5 _ hr0)
      · rw [if_neg hr]
        exact h5 r hr0
    · intro r t ht
      dsimp only at ht ⊢
      by_cases hp : t = det.trackId ∧ r = region.id
      · rw [if_pos hp]
        simp
      · rw [if_neg hp]
        exact h6 r t ht

theorem dtDetPhase_inv (cfg : DTConfig) (s : DTState) (dets : List Detection)
    (frameIdx : ℤ)
    (hAE : ∀ r t, t ∈ s.alertedTracks r → s.trackEntryFrame t r ≠ none) :
    (dtDetPhase cfg s dets frameIdx).1.dwellTimes = s.dwellTimes ∧
    (∀ r t, t ∈ s.currentDwelling r →
      t ∈ (dtDetPhase cfg s dets frameIdx).1.currentDwelling r) ∧
    (∀ r t, t ∈ (dtDetPhase cfg s dets frameIdx).1.currentDwelling r →
      t ∈ s.currentDwelling r ∨ t ∈ (dtDetPhase cfg s dets frameIdx).2.1 r) ∧
    (∀ r t, t ∉ (dtDetPhase cfg s dets frameIdx).2.1 r →
      (dtDetPhase cfg s dets frameIdx).1.trackEntryFrame t r =
        s.trackEntryFrame t r) ∧
    (∀ r, (s.currentDwelling r).Nodup →
      ((dtDetPhase cfg s dets frameIdx).1.currentDwelling r).Nodup) ∧
    (∀ r t, t ∈ (dtDetPhase cfg s dets frameIdx).1.alertedTracks r →
      (dtDetPhase cfg s dets frameIdx).1.trackEntryFrame t r ≠ none) := by
  unfold dtDetPhase
  refine foldlPreserve (P := fun sca : DTState × (ℤ → List ℤ) × List DTAlert =>
    sca.1.dwellTimes = s.dwellTimes ∧
    (∀ r t, t ∈ s.currentDwelling r → t ∈ sca.1.currentDwelling r) ∧
    (∀ r t, t ∈ sca.1.currentDwelling r →
      t ∈ s.currentDwelling r ∨ t ∈ sca.2.1 r) ∧
    (∀ r t, t ∉ sca.2.1 r →
      sca.1.trackEntryFrame t r = s.trackEntryFrame t r) ∧
    (∀ r, (s.currentDwelling r).Nodup → (sca.1.currentDwelling r).Nodup) ∧
    (∀ r t, t ∈ sca.1.alertedTracks r → sca.1.trackEntryFrame t r ≠ none))
    ?_ dets (s, fun _ => [], [])
    ⟨rfl, fun r t h => h, fun r t h => Or.inl h, fun r t _ => rfl,
      fun r h => h, hAE⟩
  intro a det ha
  refine foldlPreserve (P := fun sca : DTState × (ℤ → List ℤ) × List DTAlert =>
    sca.1.dwellTimes = s.dwellTimes ∧
    (∀ r t, t ∈ s.currentDwelling r → t ∈ sca.1.currentDwelling r) ∧
    (∀ r t, t ∈ sca.1.currentDwelling r →
      t ∈ s.currentDwelling r ∨ t ∈ sca.2.1 r) ∧
    (∀ r t, t ∉ sca.2.1 r →
      sca.1.trackEntryFrame t r = s.trackEntryFrame t r) ∧
    (∀ r, (s.currentDwelling r).Nodup → (sca.1.currentDwelling r).Nodup) ∧
    (∀ r t, t ∈ sca.1.alertedTracks r → sca.1.trackEntryFrame t r ≠ none))
    ?_ cfg.regions a ha
  intro a2 region ha2
  obtain ⟨g1, g2, g3, g4, g5, g6⟩ := ha2
  exact dtRegionStep_inv cfg frameIdx det (getCentroid cfg.centroidMode det)
    s a2 region g1 g2 g3 g4 g5 g6

theorem dtRegionStep_cur (cfg : DTConfig) (frameIdx : ℤ) (det : Detection)
    (c : ℚ × ℚ) (sca : DTState × (ℤ → List ℤ) × List DTAlert)
    (region : RegionZone) :
    (dtRegionStep cfg frameIdx det c sca region).2.1 =
      if region.coords.length < 3 then sca.2.1
      else if pointInPolygon c region.coords then
        fun r => if r = region.id then sadd (sca.2.1 r) det.trackId
          else sca.2.1 r
      else sca.2.1 := by
  unfold dtRegionStep
  dsimp only
  split_ifs <;> rfl

theorem dtRegionFold_cur (cfg : DTConfig) (frameIdx : ℤ) (det : Detection) :
    ∀ (rs : List RegionZone) (sca : DTState × (ℤ → List ℤ) × List DTAlert),
      (rs.foldl (dtRegionStep cfg frameIdx det
        (getCentroid cfg.centroidMode det)) sca).2.1 =
      rs.foldl (fun cur region =>
        if region.coords.length < 3 then cur
        else if pointInPolygon (getCentroid cfg.centroidMode det) region.coords
        then fun r => if r = region.id then sadd (cur r) det.trackId else cur r
        else cur) sca.2.1 := by
  intro rs
  induction rs with
  | nil => intro sca; rfl
  | cons region tl ih =>
    intro sca
    rw [List.foldl_cons, List.foldl_cons, ih, dtRegionStep_cur]

theorem dtDetPhase_cur (cfg : DTConfig) (s : DTState) (dets : List Detection)
    (frameIdx : ℤ) :
    (dtDetPhase cfg s dets frameIdx).2.1 = dtCurrentInRegion cfg dets := by
  unfold dtDetPhase dtCurrentInRegion
  suffices h : ∀ (l : List Detection)
      (sca : DTState × (ℤ → List ℤ) × List DTAlert),
      (l.foldl (fun sca det => cfg.regions.foldl
        (dtRegionStep cfg frameIdx det (getCentroid cfg.centroidMode det)) sca)
        sca).2.1 =
      l.foldl (fun cur det => cfg.regions.foldl (fun cur region =>
        if region.coords.length < 3 then cur
        else if pointInPolygon (getCentroid cfg.centroidMode det) region.coords
        then fun r => if r = region.id then sadd (cur r) det.trackId else cur r
        else cur) cur) sca.2.1 by
    exact h dets (s, fun _ => [], [])
  intro l
  induction l with
  | nil => intro sca; rfl
  | cons det tl ih =>
    intro sca
    rw [List.foldl_cons, List.foldl_cons, ih, dtRegionFold_cur]

theorem dtExitStep_other (cfg : DTConfig) (frameIdx r : ℤ) (s : DTState)
    (t : ℤ) :
    (dtExitStep cfg frameIdx r s t).currentDwelling = s.currentDwelling ∧
    ∀ r2, r2 ≠ r →
      (dtExitStep cfg frameIdx r s t).dwellTimes r2 = s.dwellTimes r2 ∧
      (dtExitStep cfg frameIdx r s t).alertedTracks r2 =
        s.alertedTracks r2 ∧
      ∀ t2, (dtExitStep cfg frameIdx r s t).trackEntryFrame t2 r2 =
        s.trackEntryFrame t2 r2 := by
  unfold dtExitStep
  cases he : s.trackEntryFrame t r with
  | none => exact ⟨rfl, fun r2 _ => ⟨rfl, rfl, fun t2 => rfl⟩⟩
  | some e =>
    dsimp only
    by_cases hmin : ((frameIdx - e : ℤ) : ℚ) ≥ cfg.minDwellFrames
    · rw [if_pos hmin]
      refine ⟨rfl, fun r2 hr2 => ⟨?_, ?_, fun t2 => ?_⟩⟩
      · try dsimp only
        rw [if_neg hr2]
      · try dsimp only
        rw [if_neg hr2]
      · try dsimp only
        rw [if_neg (fun hand => hr2 hand.2)]
    · rw [if_neg hmin]
      refine ⟨rfl, fun r2 hr2 => ⟨rfl, ?_, fun t2 => ?_⟩⟩
      · try dsimp only
        rw [if_neg hr2]
      · try dsimp only
        rw [if_neg (fun hand => hr2 hand.2)]

theorem dtExitStep_some (cfg : DTConfig) (frameIdx r : ℤ) (s : DTState)
    (t e : ℤ) (he : s.trackEntryFrame t r = some e) :
    (dtExitStep cfg frameIdx r s t).dwellTimes r =
      s.dwellTimes r ++
        (if ((frameIdx - e : ℤ) : ℚ) ≥ cfg.minDwellFrames
          then [((frameIdx - e : ℤ) : ℚ) / cfg.fps] else []) ∧
    (∀ t2 r2, (dtExitStep cfg frameIdx r s t).trackEntryFrame t2 r2 =
      if t2 = t ∧ r2 = r then none else s.trackEntryFrame t2 r2) ∧
    (dtExitStep cfg frameIdx r s t).alertedTracks r =
      sdiscard (s.alertedTracks r) t := by
  unfold dtExitStep
  rw [he]
  dsimp only
  by_cases hmin : ((frameIdx - e : ℤ) : ℚ) ≥ cfg.minDwellFrames
  · rw [if_pos hmin, if_pos hmin]
    refine ⟨?_, fun t2 r2 => rfl, ?_⟩
    · try dsimp only
      rw [if_pos rfl]
    · try dsimp only
      rw [if_pos rfl]
  · rw [if_neg hmin, if_neg hmin]
    refine ⟨?_, fun t2 r2 => rfl, ?_⟩
    · exact (List.append_nil _).symm
    · try dsimp only
      rw [if_pos rfl]

theorem dtExitStep_none (cfg : DTConfig) (frameIdx r : ℤ) (s : DTState)
    (t : ℤ) (he : s.trackEntryFrame t r = none) :
    dtExitStep cfg frameIdx r s t = s := by
  unfold dtExitStep
  rw [he]

theorem dtExitFoldOther (cfg : DTConfig) (frameIdx r : ℤ) (l : List ℤ)
    (s : DTState) :
    (l.foldl (dtExitStep cfg frameIdx r) s).currentDwelling =
      s.currentDwelling ∧
    ∀ r2, r2 ≠ r →
      (l.foldl (dtExitStep cfg frameIdx r) s).dwellTimes r2 =
        s.dwellTimes r2 ∧
      (l.foldl (dtExitStep cfg frameIdx r) s).alertedTracks r2 =
        s.alertedTracks r2 ∧
      ∀ t2, (l.foldl (dtExitStep cfg frameIdx r) s).trackEntryFrame t2 r2 =
        s.trackEntryFrame t2 r2 := by
  refine foldlPreserve (P := fun st : DTState =>
    st.currentDwelling = s.currentDwelling ∧
    ∀ r2, r2 ≠ r → st.dwellTimes r2 = s.dwellTimes r2 ∧
      st.alertedTracks r2 = s.alertedTracks r2 ∧
      ∀ t2, st.trackEntryFrame t2 r2 = s.trackEntryFrame t2 r2)
    ?_ l s ⟨rfl, fun r2 _ => ⟨rfl, rfl, fun t2 => rfl⟩⟩
  intro a t hp
  obtain ⟨p1, p2⟩ := hp
  obtain ⟨q1, q2⟩ := dtExitStep_other cfg frameIdx r a t
  refine ⟨q1.trans p1, fun r2 hr2 => ?_⟩
  obtain ⟨q2a, q2b, q2c⟩ := q2 r2 hr2
  obtain ⟨p2a, p2b, p2c⟩ := p2 r2 hr2
  exact ⟨q2a.trans p2a, q2b.trans p2b, fun t2 => (q2c t2).trans (p2c t2)⟩

theorem dtExitFoldMain (cfg : DTConfig) (frameIdx rid : ℤ) :
    ∀ (l : List ℤ) (s : DTState), l.Nodup →
      (∀ x, x ∈ s.alertedTracks rid → s.trackEntryFrame x rid ≠ none) →
      ((l.foldl (dtExitStep cfg frameIdx rid) s).dwellTimes rid =
        s.dwellTimes rid ++ l.filterMap (fun t =>
          (s.trackEntryFrame t rid).bind (fun e =>
            if ((frameIdx - e : ℤ) : ℚ) ≥ cfg.minDwellFrames
            then some (((frameIdx - e : ℤ) : ℚ) / cfg.fps) else none))) ∧
      (∀ t ∈ l,
        (l.foldl (dtExitStep cfg frameIdx rid) s).trackEntryFrame t rid =
          none ∧
        t ∉ (l.foldl (dtExitStep cfg frameIdx rid) s).alertedTracks rid) ∧
      (∀ x, x ∉ l →
        (l.foldl (dtExitStep cfg frameIdx rid) s).trackEntryFrame x rid =
          s.trackEntryFrame x rid) ∧
      (∀ x, x ∉ s.alertedTracks rid →
        x ∉ (l.foldl (dtExitStep cfg frameIdx rid) s).alertedTracks rid) := by
  intro l
  induction l with
  | nil =>
    intro s _ _
    exact ⟨(List.append_nil _).symm,
      fun t ht => absurd ht (List.not_mem_nil t), fun x _ => rfl,
      fun x hx => hx⟩
  | cons t tl ih =>
    intro s hnd hA
    obtain ⟨hnt, hntl⟩ := List.nodup_cons.mp hnd
    rw [List.foldl_cons]
    cases he : s.trackEntryFrame t rid with
    | none =>
      rw [dtExitStep_none cfg frameIdx rid s t he]
      obtain ⟨i1, i2, i3, i4⟩ := ih s hntl hA
      refine ⟨?_, ?_, ?_, i4⟩
      · rw [i1]
        congr 1
        rw [List.filterMap_cons]
        simp [he]
      · intro u hu
        rcases List.mem_cons.mp hu with rfl | hu
        · refine ⟨(i3 u hnt).trans he, ?_⟩
          intro hx
          have hne2 : u ∉ s.alertedTracks rid := fun hmem => (hA u hmem) he
          exact i4 u hne2 hx
        · exact i2 u hu
      · intro x hx
        exact i3 x (fun h => hx (List.mem_cons_of_mem t h))
    | some e =>
      obtain ⟨q1, q2, q3⟩ := dtExitStep_some cfg frameIdx rid s t e he
      have hA2 : ∀ x,
          x ∈ (dtExitStep cfg frameIdx rid s t).alertedTracks rid →
          (dtExitStep cfg frameIdx rid s t).trackEntryFrame x rid ≠ none := by
        intro x hx
        rw [q3] at hx
        obtain ⟨hx1, hx2⟩ := List.mem_filter.mp hx
        have hxt : x ≠ t := of_decide_eq_true hx2
        rw [q2 x rid, if_neg (fun hand => hxt hand.1)]
        exact hA x hx1
      obtain ⟨i1, i2, i3, i4⟩ := ih (dtExitStep cfg frameIdx rid s t) hntl hA2
      refine ⟨?_, ?_, ?_, ?_⟩
      · rw [i1, q1]
        have hcon : tl.filterMap (fun u =>
            ((dtExitStep cfg frameIdx rid s t).trackEntryFrame u rid).bind
              (fun e2 => if ((frameIdx - e2 : ℤ) : ℚ) ≥ cfg.minDwellFrames
                then some (((frameIdx - e2 : ℤ) : ℚ) / cfg.fps) else none)) =
            tl.filterMap (fun u => (s.trackEntryFrame u rid).bind
              (fun e2 => if ((frameIdx - e2 : ℤ) : ℚ) ≥ cfg.minDwellFrames
                then some (((frameIdx - e2 : ℤ) : ℚ) / cfg.fps) else none)) := by
          refine List.filterMap_congr ?_
          intro u hu
          have hut : ¬(u = t ∧ rid = rid) := fun hand => hnt (hand.1 ▸ hu)
          rw [q2 u rid, if_neg hut]
        rw [hcon, List.filterMap_cons]
        simp only [he, Option.some_bind]
        split_ifs with hmin
        · simp
        · simp
      · intro u hu
        rcases List.mem_cons.mp hu with rfl | hu
        · refine ⟨(i3 u hnt).trans ?_, ?_⟩
          · rw [q2 u rid, if_pos ⟨rfl, rfl⟩]
          · refine i4 u ?_
            rw [q3]
            exact not_mem_sdiscard _ _
        · exact i2 u hu
      · intro x hx
        have hxt : x ≠ t := fun h => hx (h ▸ List.mem_cons_self t tl)
        have hxtl : x ∉ tl := fun h => hx (List.mem_cons_of_mem t h)
        refine (i3 x hxtl).trans ?_
        rw [q2 x rid, if_neg (fun hand => hxt hand.1)]
      · intro x hx
        refine i4 x ?_
        rw [q3]
        exact not_mem_sdiscard_of_not_mem hx

theorem dtExitPhaseFoldOther (cfg : DTConfig) (frameIdx rid : ℤ)
    (cur : ℤ → List ℤ) (L : List ℤ) (hL : rid ∉ L) (d : DTState) :
    ((L.foldl (fun s r =>
        ((s.currentDwelling r).filter (fun t => decide (t ∉ cur r))).foldl
          (dtExitStep cfg frameIdx r) s) d).dwellTimes rid =
      d.dwellTimes rid) ∧
    ((L.foldl (fun s r =>
        ((s.currentDwelling r).filter (fun t => decide (t ∉ cur r))).foldl
          (dtExitStep cfg frameIdx r) s) d).alertedTracks rid =
      d.alertedTracks rid) ∧
    (∀ t2, (L.foldl (fun s r =>
        ((s.currentDwelling r).filter (fun t => decide (t ∉ cur r))).foldl
          (dtExitStep cfg frameIdx r) s) d).trackEntryFrame t2 rid =
      d.trackEntryFrame t2 rid) ∧
    ((L.foldl (fun s r =>
        ((s.currentDwelling r).filter (fun t => decide (t ∉ cur r))).foldl
          (dtExitStep cfg frameIdx r) s) d).currentDwelling =
      d.currentDwelling) := by
  refine foldlPreserveMem L ?_ d ⟨rfl, rfl, fun t2 => rfl, rfl⟩
    (P := fun st : DTState =>
      st.dwellTimes rid = d.dwellTimes rid ∧
      st.alertedTracks rid = d.alertedTracks rid ∧
      (∀ t2, st.trackEntryFrame t2 rid = d.trackEntryFrame t2 rid) ∧
      st.currentDwelling = d.currentDwelling)
  intro a r hrL hp
  obtain ⟨p1, p2, p3, p4⟩ := hp
  have hrne : rid ≠ r := fun h => hL (h ▸ hrL)
  obtain ⟨o1, o2⟩ := dtExitFoldOther cfg frameIdx r
    ((a.currentDwelling r).filter (fun t => decide (t ∉ cur r))) a
  obtain ⟨o2a, o2b, o2c⟩ := o2 rid hrne
  exact ⟨o2a.trans p1, o2b.trans p2, fun t2 => (o2c t2).trans (p3 t2),
    o1.trans p4⟩

theorem dtExitRegions (cfg : DTConfig) (frameIdx rid : ℤ)
    (cur : ℤ → List ℤ) :
    ∀ (L : List ℤ), L.Nodup → rid ∈ L → ∀ (d : DTState),
      (d.currentDwelling rid).Nodup →
      (∀ x, x ∈ d.alertedTracks rid → d.trackEntryFrame x rid ≠ none) →
      ((L.foldl (fun s r =>
          ((s.currentDwelling r).filter (fun t => decide (t ∉ cur r))).foldl
            (dtExitStep cfg frameIdx r) s) d).dwellTimes rid =
        d.dwellTimes rid ++
          ((d.currentDwelling rid).filter
            (fun t => decide (t ∉ cur rid))).filterMap (fun t =>
              (d.trackEntryFrame t rid).bind (fun e =>
                if ((frameIdx - e : ℤ) : ℚ) ≥ cfg.minDwellFrames
                then some (((frameIdx - e : ℤ) : ℚ) / cfg.fps) else none))) ∧
      (∀ t ∈ (d.currentDwelling rid).filter (fun t => decide (t ∉ cur rid)),
        (L.foldl (fun s r =>
          ((s.currentDwelling r).filter (fun t => decide (t ∉ cur r))).foldl
            (dtExitStep cfg frameIdx r) s) d).trackEntryFrame t rid = none ∧
        t ∉ (L.foldl (fun s r =>
          ((s.currentDwelling r).filter (fun t => decide (t ∉ cur r))).foldl
            (dtExitStep cfg frameIdx r) s) d).alertedTracks rid) := by
  intro L
  induction L with
  | nil =>
    intro _ hmem
    exact absurd hmem (List.not_mem_nil rid)
  | cons r tl ih =>
    intro hnd hmem d hdn hdA
    obtain ⟨hr_tl, hnd_tl⟩ := List.nodup_cons.mp hnd
    rw [List.foldl_cons]
    by_cases hr : r = rid
    · subst hr
      try dsimp only
      obtain ⟨m1, m2, -, -⟩ := dtExitFoldMain cfg frameIdx r
        ((d.currentDwelling r).filter (fun t => decide (t ∉ cur r))) d
        (hdn.filter _) hdA
      obtain ⟨o1, o2, o3, o4⟩ := dtExitPhaseFoldOther cfg frameIdx r cur tl
        hr_tl (((d.currentDwelling r).filter
          (fun t => decide (t ∉ cur r))).foldl (dtExitStep cfg frameIdx r) d)
      refine ⟨o1.trans m1, fun t ht => ⟨(o3 t).trans (m2 t ht).1, ?_⟩⟩
      intro hx
      rw [o2] at hx
      exact (m2 t ht).2 hx
    · have hmem2 : rid ∈ tl :=
        (List.mem_cons.mp hmem).resolve_left (fun h => hr h.symm)
      try dsimp only
      obtain ⟨p1, p2⟩ := dtExitFoldOther cfg frameIdx r
        ((d.currentDwelling r).filter (fun t => decide (t ∉ cur r))) d
      obtain ⟨p2a, p2b, p2c⟩ := p2 rid (fun h => hr h.symm)
      obtain ⟨q1, q2⟩ := ih hnd_tl hmem2
        (((d.currentDwelling r).filter (fun t => decide (t ∉ cur r))).foldl
          (dtExitStep cfg frameIdx r) d)
        (by rw [p1]; exact hdn)
        (fun x hx => by
          rw [p2c x]
          exact hdA x (by rw [← p2b]; exact hx))
      rw [p1, p2a] at q1
      have hfe : (fun t => ((((d.currentDwelling r).filter
          (fun t => decide (t ∉ cur r))).foldl (dtExitStep cfg frameIdx r)
            d).trackEntryFrame t rid).bind (fun e =>
              if ((frameIdx - e : ℤ) : ℚ) ≥ cfg.minDwellFrames
              then some (((frameIdx - e : ℤ) : ℚ) / cfg.fps) else none)) =
          (fun t => (d.trackEntryFrame t rid).bind (fun e =>
              if ((frameIdx - e : ℤ) : ℚ) ≥ cfg.minDwellFrames
              then some (((frameIdx - e : ℤ) : ℚ) / cfg.fps) else none)) :=
        funext fun t => by rw [p2c t]
      rw [hfe] at q1
      rw [p1] at q2
      exact ⟨q1, q2⟩

/-- C5: in `DwellTimeFeature.process`, for a configured region id, the
tracks processed by the exit loop are exactly those that were inside the
region on the previous processed frame and are not inside on the current
frame; a completed-dwell sample `(frame_idx - entry_frame) / fps` is
appended for such a track if and only if the elapsed frames reach
`min_dwell_frames`, and on every exit the pair's entry frame and alerted
flag are cleared regardless of whether a sample was recorded.  The
hypotheses are invariants of every reachable state: the dwelling set is
duplicate-free and alerted tracks always hold an entry frame. -/
theorem C5_completed_dwell_iff_exit (cfg : DTConfig) (s : DTState)
    (dets : List Detection) (frameIdx rid : ℤ)
    (hrid : rid ∈ (cfg.regions.map RegionZone.id).dedup)
    (hnodup : (s.currentDwelling rid).Nodup)
    (hAE : ∀ r x, x ∈ s.alertedTracks r → s.trackEntryFrame x r ≠ none) :
    ∃ exits : List ℤ,
      (∀ t, t ∈ exits ↔ t ∈ s.currentDwelling rid ∧
        t ∉ dtCurrentInRegion cfg dets rid) ∧
      (dtProcess cfg s dets frameIdx).1.dwellTimes rid =
        s.dwellTimes rid ++ exits.filterMap (fun t =>
          (s.trackEntryFrame t rid).bind (fun e =>
            if ((frameIdx - e : ℤ) : ℚ) ≥ cfg.minDwellFrames
            then some (((frameIdx - e : ℤ) : ℚ) / cfg.fps) else none)) ∧
      (∀ t ∈ exits,
        (dtProcess cfg s dets frameIdx).1.trackEntryFrame t rid = none ∧
        t ∉ (dtProcess cfg s dets frameIdx).1.alertedTracks rid) ∧
      (dtProcess cfg s dets frameIdx).1.currentDwelling rid =
        dtCurrentInRegion cfg dets rid := by
  obtain ⟨f1, f2, f3, f4, f5, f6⟩ := dtDetPhase_inv cfg
    { s with frameCount := s.frameCount + 1 } dets frameIdx hAE
  have hcur := dtDetPhase_cur cfg { s with frameCount := s.frameCount + 1 }
    dets frameIdx
  obtain ⟨e1, e2⟩ := dtExitRegions cfg frameIdx rid
    (dtDetPhase cfg { s with frameCount := s.frameCount + 1 } dets
      frameIdx).2.1
    ((cfg.regions.map RegionZone.id).dedup) (List.nodup_dedup _) hrid
    (dtDetPhase cfg { s with frameCount := s.frameCount + 1 } dets
      frameIdx).1
    (f5 rid hnodup) (f6 rid)
  refine ⟨((dtDetPhase cfg { s with frameCount := s.frameCount + 1 } dets
      frameIdx).1.currentDwelling rid).filter
      (fun t => decide (t ∉ (dtDetPhase cfg { s with frameCount :=
        s.frameCount + 1 } dets frameIdx).2.1 rid)), ?_, ?_, ?_, ?_⟩
  · intro t
    constructor
    · intro ht
      obtain ⟨htd, htc⟩ := List.mem_filter.mp ht
      have htc2 : t ∉ (dtDetPhase cfg { s with frameCount :=
          s.frameCount + 1 } dets frameIdx).2.1 rid := of_decide_eq_true htc
      rcases f3 rid t htd with h | h
      · refine ⟨h, ?_⟩
        rw [← hcur]
        exact htc2
      · exact absurd h htc2
    · rintro ⟨hin, hout⟩
      refine List.mem_filter.mpr ⟨f2 rid t hin, decide_eq_true ?_⟩
      rw [hcur]
      exact hout
  · have hd1 : (dtDetPhase cfg { s with frameCount := s.frameCount + 1 }
        dets frameIdx).1.dwellTimes rid = s.dwellTimes rid := congrFun f1 rid
    have hfm : (((dtDetPhase cfg { s with frameCount := s.frameCount + 1 }
        dets frameIdx).1.currentDwelling rid).filter
        (fun t => decide (t ∉ (dtDetPhase cfg { s with frameCount :=
          s.frameCount + 1 } dets frameIdx).2.1 rid))).filterMap (fun t =>
            ((dtDetPhase cfg { s with frameCount := s.frameCount + 1 } dets
              frameIdx).1.trackEntryFrame t rid).bind (fun e =>
                if ((frameIdx - e : ℤ) : ℚ) ≥ cfg.minDwellFrames
                then some (((frameIdx - e : ℤ) : ℚ) / cfg.fps) else none)) =
        (((dtDetPhase cfg { s with frameCount := s.frameCount + 1 }
        dets frameIdx).1.currentDwelling rid).filter
        (fun t => decide (t ∉ (dtDetPhase cfg { s with frameCount :=
          s.frameCount + 1 } dets frameIdx).2.1 rid))).filterMap (fun t =>
            (s.trackEntryFrame t rid).bind (fun e =>
                if ((frameIdx - e : ℤ) : ℚ) ≥ cfg.minDwellFrames
                then some (((frameIdx - e : ℤ) : ℚ) / cfg.fps) else none)) := by
      refine List.filterMap_congr ?_
      intro u hu
      have hout : u ∉ (dtDetPhase cfg { s with frameCount :=
          s.frameCount + 1 } dets frameIdx).2.1 rid :=
        of_decide_eq_true (List.mem_filter.mp hu).2
      rw [f4 rid u hout]
    exact e1.trans (by rw [hd1, hfm])
  · exact e2
  · exact congrFun hcur rid

/-- Witness: the hypotheses and conclusion of `C5_completed_dwell_iff_exit`
at the freshly constructed dwell feature with the scenario configuration,
an empty detection list, frame 1 and region id 0. -/
theorem C5_completed_dwell_iff_exit_witness :
    ((0 : ℤ) ∈ (dtCfgX.regions.map RegionZone.id).dedup ∧
      (dtInit.currentDwelling 0).Nodup ∧
      (∀ r x, x ∈ dtInit.alertedTracks r →
        dtInit.trackEntryFrame x r ≠ none)) ∧
    (∃ exits : List ℤ,
      (∀ t, t ∈ exits ↔ t ∈ dtInit.currentDwelling 0 ∧
        t ∉ dtCurrentInRegion dtCfgX [] 0) ∧
      (dtProcess dtCfgX dtInit [] 1).1.dwellTimes 0 =
        dtInit.dwellTimes 0 ++ exits.filterMap (fun t =>
          (dtInit.trackEntryFrame t 0).bind (fun e =>
            if ((1 - e : ℤ) : ℚ) ≥ dtCfgX.minDwellFrames
            then some (((1 - e : ℤ) : ℚ) / dtCfgX.fps) else none)) ∧
      (∀ t ∈ exits,
        (dtProcess dtCfgX dtInit [] 1).1.trackEntryFrame t 0 = none ∧
        t ∉ (dtProcess dtCfgX dtInit [] 1).1.alertedTracks 0) ∧
      (dtProcess dtCfgX dtInit [] 1).1.currentDwelling 0 =
        dtCurrentInRegion dtCfgX [] 0) := by
  have h1 : (0 : ℤ) ∈ (dtCfgX.regions.map RegionZone.id).dedup := by decide
  have h2 : (dtInit.currentDwelling 0).Nodup := List.nodup_nil
  have h3 : ∀ r x, x ∈ dtInit.alertedTracks r →
      dtInit.trackEntryFrame x r ≠ none :=
    fun r x hx => absurd hx (List.not_mem_nil x)
  exact ⟨⟨h1, h2, h3⟩, C5_completed_dwell_iff_exit dtCfgX dtInit [] 1 0
    h1 h2 h3⟩

theorem rcRegionStep_single (cfg : RCConfig) (z : RegionZone) (f : ℤ)
    (det : Detection) (c : ℚ × ℚ) (s0 : RCState)
    (hcool : 0 < cfg.cooldownFrames) (sa : RCState × List RCAlert)
    (j1 : ∀ a ∈ sa.2, a.frame = f ∧ a.count ≥ cfg.alertThreshold ∧
      a.kind = "region_crowd_alert")
    (j2 : sa.2 = [] → sa.1.lastAlertFrame 0 = s0.lastAlertFrame 0)
    (j3 : sa.2 ≠ [] → sa.1.lastAlertFrame 0 = f ∧
      f - s0.lastAlertFrame 0 ≥ cfg.cooldownFrames)
    (j4 : sa.2.length ≤ 1) (j5 : sa.1.alerts = s0.alerts) :
    (∀ a ∈ (rcRegionStep cfg f det c sa (0, z)).2, a.frame = f ∧
      a.count ≥ cfg.alertThreshold ∧ a.kind = "region_crowd_alert") ∧
    ((rcRegionStep cfg f det c sa (0, z)).2 = [] →
      (rcRegionStep cfg f det c sa (0, z)).1.lastAlertFrame 0 =
        s0.lastAlertFrame 0) ∧
    ((rcRegionStep cfg f det c sa (0, z)).2 ≠ [] →
      (rcRegionStep cfg f det c sa (0, z)).1.lastAlertFrame 0 = f ∧
      f - s0.lastAlertFrame 0 ≥ cfg.cooldownFrames) ∧
    ((rcRegionStep cfg f det c sa (0, z)).2.length ≤ 1) ∧
    (rcRegionStep cfg f det c sa (0, z)).1.alerts = s0.alerts := by
  unfold rcRegionStep
  dsimp only
  by_cases hc3 : z.coords.length < 3
  · rw [if_pos hc3]
    exact ⟨j1, j2, j3, j4, j5⟩
  rw [if_neg hc3]
  by_cases hin : pointInPolygon c z.coords = true
  swap
  · rw [if_neg hin]
    exact ⟨j1, j2, j3, j4, j5⟩
  rw [if_pos hin]
  by_cases hmax : sa.1.currentCounts 0 + 1 > sa.1.maxCounts 0
  all_goals first
    | rw [if_pos hmax]
    | rw [if_neg hmax]
  all_goals try dsimp only
  all_goals
    by_cases halert : sa.1.currentCounts 0 + 1 ≥ cfg.alertThreshold ∧
      f - sa.1.lastAlertFrame 0 ≥ cfg.cooldownFrames
  all_goals first
    | rw [if_pos halert]
    | rw [if_neg halert]
  all_goals try exact ⟨j1, j2, j3, j4, j5⟩
  · refine ⟨?_, fun h => absurd h (by simp), fun _ => ⟨?_, ?_⟩, ?_, j5⟩
    · intro a ha
      rcases List.mem_append.mp ha with h | h
      · exact j1 a h
      · rcases List.mem_singleton.mp h with h2
        subst h2
        exact ⟨rfl, halert.1, rfl⟩
    · try dsimp only
      rw [if_pos rfl]
    · by_cases hsa : sa.2 = []
      · rw [← j2 hsa]
        exact halert.2
      · exfalso
        have hL := (j3 hsa).1
        have hg := halert.2
        rw [hL] at hg
        omega
    · by_cases hsa : sa.2 = []
      · rw [hsa]
        simp
      · exfalso
        have hL := (j3 hsa).1
        have hg := halert.2
        rw [hL] at hg
        omega
  · refine ⟨?_, fun h => absurd h (by simp), fun _ => ⟨?_, ?_⟩, ?_, j5⟩
    · intro a ha
      rcases List.mem_append.mp ha with h | h
      · exact j1 a h
      · rcases List.mem_singleton.mp h with h2
        subst h2
        exact ⟨rfl, halert.1, rfl⟩
    · try dsimp only
      rw [if_pos rfl]
    · by_cases hsa : sa.2 = []
      · rw [← j2 hsa]
        exact halert.2
      · exfalso
        have hL := (j3 hsa).1
        have hg := halert.2
        rw [hL] at hg
        omega
    · by_cases hsa : sa.2 = []
      · rw [hsa]
        simp
      · exfalso
        have hL := (j3 hsa).1
        have hg := halert.2
        rw [hL] at hg
        omega

theorem rcDetsFold_single (cfg : RCConfig) (z : RegionZone) (f : ℤ)
    (hcool : 0 < cfg.cooldownFrames) (s0 : RCState) (dets : List Detection)
    (sa : RCState × List RCAlert)
    (j1 : ∀ a ∈ sa.2, a.frame = f ∧ a.count ≥ cfg.alertThreshold ∧
      a.kind = "region_crowd_alert")
    (j2 : sa.2 = [] → sa.1.lastAlertFrame 0 = s0.lastAlertFrame 0)
    (j3 : sa.2 ≠ [] → sa.1.lastAlertFrame 0 = f ∧
      f - s0.lastAlertFrame 0 ≥ cfg.cooldownFrames)
    (j4 : sa.2.length ≤ 1) (j5 : sa.1.alerts = s0.alerts) :
    (∀ a ∈ (dets.foldl (fun sa det =>
        ([(0, z)] : List (ℕ × RegionZone)).foldl
          (rcRegionStep cfg f det (getCentroid cfg.centroidMode det)) sa)
        sa).2, a.frame = f ∧ a.count ≥ cfg.alertThreshold ∧
      a.kind = "region_crowd_alert") ∧
    ((dets.foldl (fun sa det =>
        ([(0, z)] : List (ℕ × RegionZone)).foldl
          (rcRegionStep cfg f det (getCentroid cfg.centroidMode det)) sa)
        sa).2 = [] →
      (dets.foldl (fun sa det =>
        ([(0, z)] : List (ℕ × RegionZone)).foldl
          (rcRegionStep cfg f det (getCentroid cfg.centroidMode det)) sa)
        sa).1.lastAlertFrame 0 = s0.lastAlertFrame 0) ∧
    ((dets.foldl (fun sa det =>
        ([(0, z)] : List (ℕ × RegionZone)).foldl
          (rcRegionStep cfg f det (getCentroid cfg.centroidMode det)) sa)
        sa).2 ≠ [] →
      (dets.foldl (fun sa det =>
        ([(0, z)] : List (ℕ × RegionZone)).foldl
          (rcRegionStep cfg f det (getCentroid cfg.centroidMode det)) sa)
        sa).1.lastAlertFrame 0 = f ∧
      f - s0.lastAlertFrame 0 ≥ cfg.cooldownFrames) ∧
    ((dets.foldl (fun sa det =>
        ([(0, z)] : List (ℕ × RegionZone)).foldl
          (rcRegionStep cfg f det (getCentroid cfg.centroidMode det)) sa)
        sa).2.length ≤ 1) ∧
    (dets.foldl (fun sa det =>
        ([(0, z)] : List (ℕ × RegionZone)).foldl
          (rcRegionStep cfg f det (getCentroid cfg.centroidMode det)) sa)
        sa).1.alerts = s0.alerts := by
  refine foldlPreserve (P := fun sa : RCState × List RCAlert =>
    (∀ a ∈ sa.2, a.frame = f ∧ a.count ≥ cfg.alertThreshold ∧
      a.kind = "region_crowd_alert") ∧
    (sa.2 = [] → sa.1.lastAlertFrame 0 = s0.lastAlertFrame 0) ∧
    (sa.2 ≠ [] → sa.1.lastAlertFrame 0 = f ∧
      f - s0.lastAlertFrame 0 ≥ cfg.cooldownFrames) ∧
    (sa.2.length ≤ 1) ∧ sa.1.alerts = s0.alerts)
    ?_ dets sa ⟨j1, j2, j3, j4, j5⟩
  intro a det ha
  obtain ⟨k1, k2, k3, k4, k5⟩ := ha
  exact rcRegionStep_single cfg z f det (getCentroid cfg.centroidMode det)
    s0 hcool a k1 k2 k3 k4 k5

theorem rcProcess_single (cfg : RCConfig) (z : RegionZone)
    (hreg : cfg.regions = [z]) (hcool : 0 < cfg.cooldownFrames)
    (s : RCState) (dets : List Detection) (f : ℤ) :
    (∀ a ∈ (rcProcess cfg s dets f).2, a.frame = f ∧
      a.count ≥ cfg.alertThreshold ∧ a.kind = "region_crowd_alert") ∧
    ((rcProcess cfg s dets f).2 = [] →
      (rcProcess cfg s dets f).1.lastAlertFrame 0 = s.lastAlertFrame 0) ∧
    ((rcProcess cfg s dets f).2 ≠ [] →
      (rcProcess cfg s dets f).1.lastAlertFrame 0 = f ∧
      f - s.lastAlertFrame 0 ≥ cfg.cooldownFrames) ∧
    ((rcProcess cfg s dets f).2.length ≤ 1) ∧
    (rcProcess cfg s dets f).1.alerts =
      s.alerts ++ (rcProcess cfg s dets f).2 := by
  unfold rcProcess
  rw [hreg]
  dsimp only
  obtain ⟨k1, k2, k3, k4, k5⟩ := rcDetsFold_single cfg z f hcool s dets
    ({ s with
        frameCount := s.frameCount + 1,
        currentCounts := fun i => if i < ([z] : List RegionZone).length
          then 0 else s.currentCounts i,
        tracksInRegion := fun i => if i < ([z] : List RegionZone).length
          then [] else s.tracksInRegion i }, [])
    (fun a ha => absurd ha (List.not_mem_nil a)) (fun _ => rfl)
    (fun h => absurd rfl h) (by simp) rfl
  exact ⟨k1, k2, k3, k4,
    congrArg (fun l => l ++ (dets.foldl (fun sa det =>
      ([(0, z)] : List (ℕ × RegionZone)).foldl
        (rcRegionStep cfg f det (getCentroid cfg.centroidMode det)) sa)
      ({ s with
          frameCount := s.frameCount + 1,
          currentCounts := fun i => if i < ([z] : List RegionZone).length
            then 0 else s.currentCounts i,
          tracksInRegion := fun i => if i < ([z] : List RegionZone).length
            then [] else s.tracksInRegion i }, [])).2) k5⟩

theorem enum_singleton {α : Type} (a : α) : ([a] : List α).enum = [(0, a)] :=
  rfl

theorem rcRun_append (cfg : RCConfig) (s : RCState)
    (l1 l2 : List (ℤ × List Detection)) :
    rcRun cfg s (l1 ++ l2) = rcRun cfg (rcRun cfg s l1) l2 := by
  unfold rcRun
  rw [List.foldl_append]

theorem rcRun_singleton (cfg : RCConfig) (s : RCState) (f : ℤ)
    (dets : List Detection) :
    rcRun cfg s [(f, dets)] = (rcProcess cfg s dets f).1 := rfl

theorem rcScenarioInputs_succ (a : ℤ) (n : ℕ) :
    rcScenarioInputs a (n + 1) =
      rcScenarioInputs a n ++ [(a + 1 + (n : ℤ), rcScenarioDets)] := by
  simp [rcScenarioInputs, List.range_succ]

theorem rcRunInv (cfg : RCConfig) (z : RegionZone) (hreg : cfg.regions = [z])
    (hcool : 0 < cfg.cooldownFrames) :
    ∀ (inputs : List (ℤ × List Detection)) (s : RCState),
      (s.alerts.map RCAlert.frame).Chain'
        (fun a b => b - a ≥ cfg.cooldownFrames) →
      (s.alerts = [] ∨ (s.alerts.map RCAlert.frame).getLast? =
        some (s.lastAlertFrame 0)) →
      (∀ a ∈ s.alerts, a.count ≥ cfg.alertThreshold ∧
        a.kind = "region_crowd_alert") →
      ((rcRun cfg s inputs).alerts.map RCAlert.frame).Chain'
        (fun a b => b - a ≥ cfg.cooldownFrames) ∧
      ((rcRun cfg s inputs).alerts = [] ∨
        ((rcRun cfg s inputs).alerts.map RCAlert.frame).getLast? =
          some ((rcRun cfg s inputs).lastAlertFrame 0)) ∧
      (∀ a ∈ (rcRun cfg s inputs).alerts, a.count ≥ cfg.alertThreshold ∧
        a.kind = "region_crowd_alert") := by
  intro inputs
  induction inputs with
  | nil => exact fun s h1 h2 h3 => ⟨h1, h2, h3⟩
  | cons p tl ih =>
    intro s h1 h2 h3
    have hrun : rcRun cfg s (p :: tl) =
        rcRun cfg (rcProcess cfg s p.2 p.1).1 tl := rfl
    rw [hrun]
    obtain ⟨k1, k2, k3, k4, k5⟩ := rcProcess_single cfg z hreg hcool s p.2 p.1
    refine ih (rcProcess cfg s p.2 p.1).1 ?_ ?_ ?_
    · rw [k5]
      cases hA : (rcProcess cfg s p.2 p.1).2 with
      | nil => simpa using h1
      | cons a rest =>
        have hrest : rest = [] := by
          have h := k4
          rw [hA] at h
          simpa using h
        subst hrest
        have hframe : a.frame = p.1 :=
          (k1 a (by rw [hA]; exact List.mem_cons_self a [])).1
        have hgap := (k3 (by rw [hA]; exact fun h => List.noConfusion h)).2
        rw [List.map_append]
        refine List.Chain'.append h1 (by simp) ?_
        intro x hx y hy
        simp only [List.map_cons, List.map_nil, List.head?_cons,
          Option.mem_def, Option.some.injEq] at hy
        rcases h2 with h2 | h2
        · rw [h2] at hx
          simp at hx
        · rw [h2] at hx
          simp only [Option.mem_def, Option.some.injEq] at hx
          subst hx
          rw [← hy, hframe]
          exact hgap
    · cases hA : (rcProcess cfg s p.2 p.1).2 with
      | nil =>
        rw [k5, hA, List.append_nil, k2 hA]
        exact h2
      | cons a rest =>
        have hrest : rest = [] := by
          have h := k4
          rw [hA] at h
          simpa using h
        subst hrest
        have hframe : a.frame = p.1 :=
          (k1 a (by rw [hA]; exact List.mem_cons_self a [])).1
        have hlast := (k3 (by rw [hA]; exact fun h => List.noConfusion h)).1
        refine Or.inr ?_
        rw [k5, hA, List.map_append, hlast, ← hframe]
        simp
    · intro a ha
      rw [k5] at ha
      rcases List.mem_append.mp ha with h | h
      · exact h3 a h
      · exact ⟨(k1 a h).2.1, (k1 a h).2.2⟩

theorem rcScenarioStep (s : RCState) (f : ℤ)
    (hm : s.maxCounts 0 = 0 ∨ s.maxCounts 0 = 4) :
    (rcProcess rcScenarioCfg s rcScenarioDets f).2 =
      (if f - s.lastAlertFrame 0 ≥ 150 then
        ([⟨"region_crowd_alert", 0, 3, 3, f⟩] : List RCAlert) else []) ∧
    (rcProcess rcScenarioCfg s rcScenarioDets f).1.lastAlertFrame 0 =
      (if f - s.lastAlertFrame 0 ≥ 150 then f else s.lastAlertFrame 0) ∧
    (rcProcess rcScenarioCfg s rcScenarioDets f).1.alerts =
      s.alerts ++ (rcProcess rcScenarioCfg s rcScenarioDets f).2 ∧
    (rcProcess rcScenarioCfg s rcScenarioDets f).1.maxCounts 0 = 4 := by
  obtain ⟨k1, k2, k3, k4, k5⟩ := rcProcess_single rcScenarioCfg
    ⟨0, triangleCoords⟩ rfl (by decide) s rcScenarioDets f
  by_cases hgap : f - s.lastAlertFrame 0 ≥ 150
  · have hA : (rcProcess rcScenarioCfg s rcScenarioDets f).2 =
        [⟨"region_crowd_alert", 0, 3, 3, f⟩] := by
      rcases hm with hm | hm <;>
        norm_num [rcProcess, rcRegionStep, rcScenarioCfg, rcScenarioDets,
          enum_singleton, centerDet_centroid, pip_triangle_center,
          triangleCoords_length, hm, hgap]
    have hM : (rcProcess rcScenarioCfg s rcScenarioDets f).1.maxCounts 0 =
        4 := by
      rcases hm with hm | hm <;>
        norm_num [rcProcess, rcRegionStep, rcScenarioCfg, rcScenarioDets,
          enum_singleton, centerDet_centroid, pip_triangle_center,
          triangleCoords_length, hm, hgap]
    refine ⟨by rw [hA, if_pos hgap], ?_, k5, hM⟩
    rw [if_pos hgap]
    exact (k3 (by rw [hA]; exact fun h => List.noConfusion h)).1
  · have hA : (rcProcess rcScenarioCfg s rcScenarioDets f).2 = [] := by
      rcases hm with hm | hm <;>
        norm_num [rcProcess, rcRegionStep, rcScenarioCfg, rcScenarioDets,
          enum_singleton, centerDet_centroid, pip_triangle_center,
          triangleCoords_length, hm, hgap]
    have hM : (rcProcess rcScenarioCfg s rcScenarioDets f).1.maxCounts 0 =
        4 := by
      rcases hm with hm | hm <;>
        norm_num [rcProcess, rcRegionStep, rcScenarioCfg, rcScenarioDets,
          enum_singleton, centerDet_centroid, pip_triangle_center,
          triangleCoords_length, hm, hgap]
    refine ⟨by rw [hA, if_neg hgap], ?_, k5, hM⟩
    rw [if_neg hgap]
    exact k2 hA

theorem rcScenarioRun : ∀ n : ℕ, n ≤ 300 →
    ((rcRun rcScenarioCfg rcInit (rcScenarioInputs 0 n)).alerts.map
        RCAlert.frame =
      if (n : ℤ) < 150 then [] else if (n : ℤ) < 300 then [150]
      else [150, 300]) ∧
    ((rcRun rcScenarioCfg rcInit (rcScenarioInputs 0 n)).lastAlertFrame 0 =
      if (n : ℤ) < 150 then 0 else if (n : ℤ) < 300 then 150 else 300) ∧
    ((rcRun rcScenarioCfg rcInit (rcScenarioInputs 0 n)).maxCounts 0 =
      if n = 0 then 0 else 4) := by
  intro n
  induction n with
  | zero =>
    intro _
    refine ⟨?_, ?_, ?_⟩
    · rw [if_pos (by norm_num)]
      rfl
    · rw [if_pos (by norm_num)]
      rfl
    · rw [if_pos rfl]
      rfl
  | succ n ih =>
    intro hn
    obtain ⟨ih1, ih2, ih3⟩ := ih (by omega)
    have hmS : (rcRun rcScenarioCfg rcInit
          (rcScenarioInputs 0 n)).maxCounts 0 = 0 ∨
        (rcRun rcScenarioCfg rcInit (rcScenarioInputs 0 n)).maxCounts 0 =
          4 := by
      rw [ih3]
      split_ifs
      · exact Or.inl rfl
      · exact Or.inr rfl
    rw [rcScenarioInputs_succ, rcRun_append,
      (show (0 : ℤ) + 1 + (n : ℤ) = (n : ℤ) + 1 by ring), rcRun_singleton]
    obtain ⟨s1, s2, s3, s4⟩ := rcScenarioStep
      (rcRun rcScenarioCfg rcInit (rcScenarioInputs 0 n)) ((n : ℤ) + 1) hmS
    rcases (by omega :
        ((n : ℤ) + 1 < 150) ∨ ((n : ℤ) + 1 = 150) ∨
        (150 < (n : ℤ) + 1 ∧ (n : ℤ) + 1 < 300) ∨ ((n : ℤ) + 1 = 300))
      with hc | hc | hc | hc
    · have hLold : (rcRun rcScenarioCfg rcInit
          (rcScenarioInputs 0 n)).lastAlertFrame 0 = 0 := by
        rw [ih2, if_pos (by omega)]
      have hgap : ¬((n : ℤ) + 1 - (rcRun rcScenarioCfg rcInit
          (rcScenarioInputs 0 n)).lastAlertFrame 0 ≥ 150) := by
        rw [hLold]
        omega
      refine ⟨?_, ?_, ?_⟩
      · rw [s3, List.map_append, s1, if_neg hgap, ih1, if_pos (by omega),
          if_pos (by push_cast; omega)]
        simp
      · rw [s2, if_neg hgap, hLold, if_pos (by push_cast; omega)]
      · rw [s4, if_neg (Nat.succ_ne_zero n)]
    · have hLold : (rcRun rcScenarioCfg rcInit
          (rcScenarioInputs 0 n)).lastAlertFrame 0 = 0 := by
        rw [ih2, if_pos (by omega)]
      have hgap : (n : ℤ) + 1 - (rcRun rcScenarioCfg rcInit
          (rcScenarioInputs 0 n)).lastAlertFrame 0 ≥ 150 := by
        rw [hLold]
        omega
      refine ⟨?_, ?_, ?_⟩
      · rw [s3, List.map_append, s1, if_pos hgap, ih1, if_pos (by omega),
          if_neg (by push_cast; omega), if_pos (by push_cast; omega)]
        simp [hc]
      · rw [s2, if_pos hgap, if_neg (by push_cast; omega),
          if_pos (by push_cast; omega)]
        exact hc
      · rw [s4, if_neg (Nat.succ_ne_zero n)]
    · have hLold : (rcRun rcScenarioCfg rcInit
          (rcScenarioInputs 0 n)).lastAlertFrame 0 = 150 := by
        rw [ih2, if_neg (by omega), if_pos (by omega)]
      have hgap : ¬((n : ℤ) + 1 - (rcRun rcScenarioCfg rcInit
          (rcScenarioInputs 0 n)).lastAlertFrame 0 ≥ 150) := by
        rw [hLold]
        omega
      refine ⟨?_, ?_, ?_⟩
      · rw [s3, List.map_append, s1, if_neg hgap, ih1, if_neg (by omega),
          if_pos (by omega), if_neg (by push_cast; omega),
          if_pos (by push_cast; omega)]
        simp
      · rw [s2, if_neg hgap, hLold, if_neg (by push_cast; omega),
          if_pos (by push_cast; omega)]
      · rw [s4, if_neg (Nat.succ_ne_zero n)]
    · have hLold : (rcRun rcScenarioCfg rcInit
          (rcScenarioInputs 0 n)).lastAlertFrame 0 = 150 := by
        rw [ih2, if_neg (by omega), if_pos (by omega)]
      have hgap : (n : ℤ) + 1 - (rcRun rcScenarioCfg rcInit
          (rcScenarioInputs 0 n)).lastAlertFrame 0 ≥ 150 := by
        rw [hLold]
        omega
      refine ⟨?_, ?_, ?_⟩
      · rw [s3, List.map_append, s1, if_pos hgap, ih1, if_neg (by omega),
          if_pos (by omega), if_neg (by push_cast; omega),
          if_neg (by push_cast; omega)]
        simp [hc]
      · rw [s2, if_pos hgap, if_neg (by push_cast; omega),
          if_neg (by push_cast; omega)]
        exact hc
      · rw [s4, if_neg (Nat.succ_ne_zero n)]

/-- C1: corrected — region-crowd alerts are rate-limited by the cooldown.
Over any single-region run with a positive cooldown, every emitted alert
carries `count ≥ alert_threshold`, and the alert frames recorded in
`alerts` are pairwise at least `cooldown_frames` apart (at most one alert
per cooldown window).  In the spec's concrete scenario (threshold 3,
cooldown 150 frames, 4 tracks inside the region at every frame), the run
over frames 1..150 emits its single alert at frame 150 — not on the first
frame the count reaches 3, because `last_alert_frame` defaults to 0 — and
the run over frames 1..300 emits exactly the alerts at frames 150 and
300. -/
theorem C1_cooldown_rate_limits_alerts (cfg : RCConfig) (z : RegionZone)
    (hreg : cfg.regions = [z]) (hcool : 0 < cfg.cooldownFrames)
    (inputs : List (ℤ × List Detection)) :
    ((∀ a ∈ (rcRun cfg rcInit inputs).alerts,
        a.count ≥ cfg.alertThreshold ∧ a.kind = "region_crowd_alert") ∧
      ((rcRun cfg rcInit inputs).alerts.map RCAlert.frame).Chain'
        (fun a b => b - a ≥ cfg.cooldownFrames)) ∧
    (rcRun rcScenarioCfg rcInit (rcScenarioInputs 0 150)).alerts.map
      RCAlert.frame = [150] ∧
    (rcRun rcScenarioCfg rcInit (rcScenarioInputs 0 300)).alerts.map
      RCAlert.frame = [150, 300] := by
  refine ⟨?_, ?_, ?_⟩
  · obtain ⟨r1, r2, r3⟩ := rcRunInv cfg z hreg hcool inputs rcInit
      List.chain'_nil (Or.inl rfl)
      (fun a ha => absurd ha (List.not_mem_nil a))
    exact ⟨r3, r1⟩
  · have h := (rcScenarioRun 150 (by norm_num)).1
    rw [if_neg (by norm_num), if_pos (by norm_num)] at h
    exact h
  · have h := (rcScenarioRun 300 (by norm_num)).1
    rw [if_neg (by norm_num), if_neg (by norm_num)] at h
    exact h

/-- Witness: the hypotheses and conclusion of
`C1_cooldown_rate_limits_alerts` at the scenario configuration with an
empty run. -/
theorem C1_cooldown_rate_limits_alerts_witness :
    (rcScenarioCfg.regions = [⟨0, triangleCoords⟩] ∧
      0 < rcScenarioCfg.cooldownFrames) ∧
    (((∀ a ∈ (rcRun rcScenarioCfg rcInit []).alerts,
        a.count ≥ rcScenarioCfg.alertThreshold ∧
        a.kind = "region_crowd_alert") ∧
      ((rcRun rcScenarioCfg rcInit []).alerts.map RCAlert.frame).Chain'
        (fun a b => b - a ≥ rcScenarioCfg.cooldownFrames)) ∧
    (rcRun rcScenarioCfg rcInit (rcScenarioInputs 0 150)).alerts.map
      RCAlert.frame = [150] ∧
    (rcRun rcScenarioCfg rcInit (rcScenarioInputs 0 300)).alerts.map
      RCAlert.frame = [150, 300]) :=
  ⟨⟨rfl, by decide⟩,
    C1_cooldown_rate_limits_alerts rcScenarioCfg ⟨0, triangleCoords⟩ rfl
      (by decide) []⟩

/-- C1 counterexample: on the very first frame of the cooldown scenario
the region count already reaches 4 ≥ alert_threshold = 3, yet NO alert is
emitted, because `last_alert_frame` defaults to 0 and the cooldown check
`frame_idx - 0 ≥ cooldown_frames` fails at frame 1; the claimed "exactly
one alert on the first frame the count reaches 3" is false. -/
theorem C1_counterexample_first_threshold_frame_emits_no_alert :
    rcScenarioCfg.alertThreshold = 3 ∧
    (rcProcess rcScenarioCfg rcInit rcScenarioDets 1).1.currentCounts 0 =
      4 ∧
    (rcProcess rcScenarioCfg rcInit rcScenarioDets 1).2 = [] := by
  refine ⟨rfl, ?_, ?_⟩
  · norm_num [rcProcess, rcRegionStep, rcScenarioCfg, rcScenarioDets,
      rcInit, enum_singleton, centerDet_centroid, pip_triangle_center,
      triangleCoords_length]
  · norm_num [rcProcess, rcRegionStep, rcScenarioCfg, rcScenarioDets,
      rcInit, enum_singleton, centerDet_centroid, pip_triangle_center,
      triangleCoords_length]

/-- C8 (amended): in `_segments_intersect`, a point whose CCW orientation
value with respect to the line is zero (the colinear case — in particular a
trajectory endpoint exactly on the configured segment) makes its `ccw`
test `false`, because the test is a strict inequality; it is therefore
classified together with the non-positive side.  Consequently an update
whose other endpoint is also on the non-positive side of the line yields
no intersection, so no crossing is counted on such an update — but an
update from a point exactly on the line to a point strictly on the
positive side does intersect and is counted (see the counterexample). -/
theorem C8_colinear_ccw_is_false_strict :
    ∀ p1 p2 p3 p4 : ℚ × ℚ,
      (p4.2 - p1.2) * (p3.1 - p1.1) = (p3.2 - p1.2) * (p4.1 - p1.1) →
      ccw p1 p3 p4 = false ∧
      ((p4.2 - p2.2) * (p3.1 - p2.1) ≤ (p3.2 - p2.2) * (p4.1 - p2.1) →
        segmentsIntersect p1 p2 p3 p4 = false) := by
  intro p1 p2 p3 p4 h1
  have hc1 : ccw p1 p3 p4 = false := by
    simp only [ccw, decide_eq_false_iff_not]
    exact not_lt.mpr (le_of_eq h1)
  refine ⟨hc1, fun h2 => ?_⟩
  have hc2 : ccw p2 p3 p4 = false := by
    simp only [ccw, decide_eq_false_iff_not]
    exact not_lt.mpr h2
  simp [segmentsIntersect, hc1, hc2]

theorem C8_colinear_ccw_is_false_strict_witness :
    ccw (1 / 2, 3 / 10) ((0 : ℚ), (3 : ℚ) / 10) (1, 3 / 10) = false ∧
    segmentsIntersect (1 / 2, 3 / 10) (1 / 2, 1 / 10)
      ((0 : ℚ), (3 : ℚ) / 10) (1, 3 / 10) = false := by
  have h := C8_colinear_ccw_is_false_strict (1 / 2, 3 / 10) (1 / 2, 1 / 10)
    ((0 : ℚ), (3 : ℚ) / 10) (1, 3 / 10) (by norm_num)
  exact ⟨h.1, h.2 (by norm_num)⟩

/-- C8 counterexample: the track's reference point at frame 1 is
`(0.5, 0.3)`, exactly on the configured segment `(0, 0.3)–(1, 0.3)` (its
CCW orientation value is zero), yet the frame-2 update — whose *previous*
reference point is that on-line point — counts a crossing:
`total_in` goes from 0 to 1.  This refutes "for every update whose current
or previous reference point lies exactly on the line, no crossing is
counted for that line on that update". -/
theorem C8_counterexample_crossing_counted_from_on_line_point :
    getCentroid "mid_centre" lcDetOnLine = (1 / 2, 3 / 10) ∧
    ((3 : ℚ) / 10 - 3 / 10) * (0 - 1 / 2) =
      ((3 : ℚ) / 10 - 3 / 10) * (1 - 1 / 2) ∧
    (lcProcess lcCfgX lcInit [lcDetOnLine] 1).1.totalIn = 0 ∧
    (lcProcess lcCfgX lcInit [lcDetOnLine] 1).1.totalOut = 0 ∧
    lcColinearRun.totalIn = 1 := by
  refine ⟨lcDetOnLine_centroid, by norm_num, ?_, ?_, ?_⟩
  · norm_num [lcProcess, lcDetStep, lcInit, lcCfgX, lcDetOnLine_centroid,
      alookup, aupsert]
  · norm_num [lcProcess, lcDetStep, lcInit, lcCfgX, lcDetOnLine_centroid,
      alookup, aupsert]
  · norm_num [lcColinearRun, lcProcess, lcDetStep, lcLineStep, lcInit, lcCfgX,
      lcLineX, lcDetOnLine_centroid, lcDetBelow_centroid, lcDetOnLine_trackId,
      lcDetBelow_trackId, check_on_line_below, sqrt_small_jump, alookup,
      aupsert, sadd, sdiscard]

/-- C10: the current dwell time that `DwellTimeFeature.get_metrics` reports
for an active occupant with entry frame `e` is `(frame_count - e) / fps`,
where `frame_count` counts `process()` invocations (each call adds exactly
one, whatever frame index it is passed) — so it matches
`(current_frame_idx - e) / fps` only when the supplied frame indices
coincide with the running call count.  Concretely, a single `process` call
at `frame_idx = 100` reports `(1 - 100) / 30`, not `(100 - 100) / 30`. -/
theorem C10_active_dwell_uses_frame_count :
    (∀ (cfg : DTConfig) (s : DTState) (region : RegionZone) (t e : ℤ),
      t ∈ s.currentDwelling region.id →
      s.trackEntryFrame t region.id = some e →
      (((s.frameCount : ℤ) - e : ℤ) : ℚ) / cfg.fps ∈
        (dtRegionMetricOf cfg s region).currentDwellTimes) ∧
    (∀ (cfg : DTConfig) (s : DTState) (dets : List Detection) (frameIdx : ℤ),
      (dtProcess cfg s dets frameIdx).1.frameCount = s.frameCount + 1) ∧
    ((dtRegionMetricOf dtCfgX (dtProcess dtCfgX dtInit [centerDet 7] 100).1
        dtRegionX).currentDwellTimes = [(1 - 100 : ℚ) / 30] ∧
      (1 - 100 : ℚ) / 30 ≠ (100 - 100 : ℚ) / 30) := by
  refine ⟨fun cfg s region t e ht he => ?_, dtProcess_frameCount, ?_, by norm_num⟩
  · simp only [dtRegionMetricOf, List.mem_filterMap]
    exact ⟨t, ht, by simp [he]⟩
  · norm_num [dtProcess, dtDetPhase, dtExitPhase, dtRegionStep, dtExitStep,
      dtInit, dtCfgX, dtRegionX, centerDet_centroid, centerDet_trackId,
      pip_triangle_center, triangleCoords_length, sadd, sdiscard,
      dtRegionMetricOf, List.filterMap_cons, List.filterMap_nil]

end Yoi
